import Mathlib

/-!
Verification development for the neoflow agentic task-execution engine.

Python strings are modeled as `List Char`; Python dicts as association
lists (for dicts produced by JSON parsing, a duplicate key keeps the last
binding, mirroring `json.loads`); Python floats as rationals; fallible
operations return `Option`/`Except`.  External effects (LLM calls, the
filesystem, the status bar, timestamps) are modeled as oracle parameters:
the value such a call returns is an input of the embedded function.

All definitions are executable (structural or fuel-bounded recursion,
where the fuel is sized so it never runs out), so concrete runs of the
embedded code evaluate by `decide`/`rfl`.
-/

/-- Characters treated as whitespace by Python `str.split()` / `str.strip()`
(common subset: ASCII whitespace plus the usual extras). -/
def isPySpace (c : Char) : Bool :=
  c = ' ' || c = '\t' || c = '\n' || c = '\x0d' || c = '\x0b' || c = '\x0c' ||
  c = '\x1c' || c = '\x1d' || c = '\x1e' || c = '\x1f' || c = '\x85'

/-- Python `str.split()` with no separator: split on whitespace runs,
dropping empty fields.  `acc` holds the current word reversed. -/
def splitWsGo : List Char → List Char → List (List Char)
  | [], acc => if acc = [] then [] else [acc.reverse]
  | c :: rest, acc =>
    if isPySpace c then
      if acc = [] then splitWsGo rest [] else acc.reverse :: splitWsGo rest []
    else splitWsGo rest (c :: acc)

def splitWs (s : List Char) : List (List Char) := splitWsGo s []

/-- Python `sep.join(parts)`. -/
def joinSep (sep : List Char) : List (List Char) → List Char
  | [] => []
  | [x] => x
  | x :: y :: xs => x ++ sep ++ joinSep sep (y :: xs)

/-- Python `str.strip()` (no argument: strip whitespace at both ends). -/
def pyStrip (s : List Char) : List Char :=
  ((s.dropWhile isPySpace).reverse.dropWhile isPySpace).reverse

/-- Line-break characters recognized by Python `str.splitlines()`. -/
def isLineBreak (c : Char) : Bool :=
  c = '\n' || c = '\x0d' || c = '\x0b' || c = '\x0c' ||
  c = '\x1c' || c = '\x1d' || c = '\x1e' || c = '\x85' ||
  c = '\u2028' || c = '\u2029'

/-- Python `str.splitlines()`.  `acc` holds the current line reversed. -/
def splitLinesGo : List Char → List Char → List (List Char)
  | [], acc => if acc = [] then [] else [acc.reverse]
  | '\x0d' :: '\n' :: rest2, acc => acc.reverse :: splitLinesGo rest2 []
  | '\x0d' :: rest, acc => acc.reverse :: splitLinesGo rest []
  | c :: rest, acc =>
    if isLineBreak c then acc.reverse :: splitLinesGo rest []
    else splitLinesGo rest (c :: acc)

def splitLines (s : List Char) : List (List Char) := splitLinesGo s []

/-- Substring test: Python `pat in s`. -/
def hasSub : List Char → List Char → Bool
  | [], pat => pat.isEmpty
  | s@(_ :: rest), pat => pat.isPrefixOf s || hasSub rest pat

/-- `pat` occurs as a contiguous substring of `s`. -/
def occursIn (pat s : List Char) : Prop := ∃ a b, s = a ++ pat ++ b

theorem hasSub_iff_occursIn (s pat : List Char) : hasSub s pat = true ↔ occursIn pat s := by
  induction s with
  | nil =>
    simp only [hasSub, List.isEmpty_iff, occursIn]
    constructor
    · rintro rfl; exact ⟨[], [], rfl⟩
    · rintro ⟨a, b, h⟩
      rcases List.append_eq_nil.mp h.symm with ⟨h1, h2⟩
      exact (List.append_eq_nil.mp h1).2
  | cons c rest ih =>
    simp only [hasSub, Bool.or_eq_true, ih, occursIn]
    constructor
    · rintro (hp | ⟨a, b, rfl⟩)
      · rcases List.isPrefixOf_iff_prefix.mp hp with ⟨t, ht⟩
        exact ⟨[], t, ht.symm⟩
      · exact ⟨c :: a, b, rfl⟩
    · rintro ⟨a, b, h⟩
      cases a with
      | nil =>
        left
        exact List.isPrefixOf_iff_prefix.mpr ⟨b, by simpa using h.symm⟩
      | cons a0 a' =>
        right
        refine ⟨a', b, ?_⟩
        simp only [List.cons_append] at h
        injection h

instance occursIn.decidable (pat s : List Char) : Decidable (occursIn pat s) :=
  decidable_of_iff (hasSub s pat = true) (hasSub_iff_occursIn s pat)

/-- One pass of Python `str.replace(old, new)` with fuel (fuel is consumed
one unit per step; each step consumes at least one character, so fuel
`s.length` is always enough).  When `old` is empty the scan just copies
(the repository never calls `replace` with an empty pattern). -/
def replA (old new : List Char) : Nat → List Char → List Char
  | _, [] => []
  | 0, s => s
  | fuel + 1, c :: rest =>
    if old ≠ [] ∧ old.isPrefixOf (c :: rest) then
      new ++ replA old new fuel (List.drop (old.length - 1) rest)
    else
      c :: replA old new fuel rest

/-- Python `s.replace(old, new)`: replace all non-overlapping occurrences,
scanning left to right. -/
def pyReplace (s old new : List Char) : List Char := replA old new s.length s

/-- Count of non-overlapping occurrences, with fuel: Python `s.count(pat)`
for non-empty `pat`. -/
def cntA (pat : List Char) : Nat → List Char → Nat
  | _, [] => 0
  | 0, _ => 0
  | fuel + 1, c :: rest =>
    if pat ≠ [] ∧ pat.isPrefixOf (c :: rest) then
      cntA pat fuel (List.drop (pat.length - 1) rest) + 1
    else
      cntA pat fuel rest

/-- Python `s.count(pat)`; for the degenerate empty pattern Python returns
`len(s) + 1`. -/
def pyCount (s pat : List Char) : Nat :=
  if pat = [] then s.length + 1 else cntA pat s.length s

/-- First-occurrence-order deduplication (the iteration order of a Python
dict/Counter built by insertion). -/
def dedupFirstGo : List (List Char) → List (List Char) → List (List Char)
  | [], _ => []
  | x :: xs, seen =>
    if seen.contains x then dedupFirstGo xs seen else x :: dedupFirstGo xs (x :: seen)

def dedupFirst (l : List (List Char)) : List (List Char) := dedupFirstGo l []

/-- Multiplicity of `x` in `l`. -/
def countEq (l : List (List Char)) (x : List Char) : Nat :=
  (l.filter (fun y => y = x)).length

/-- Stable insertion into a descending-by-key list: `x` goes after every
element whose key is `≥` its own, matching Python's stable
`sort(key=…, reverse=True)`. -/
def insertDescBy {α : Type} (key : α → Int) (x : α) : List α → List α
  | [] => [x]
  | y :: ys => if key y < key x then x :: y :: ys else y :: insertDescBy key x ys

/-- Stable descending sort by key (insertion sort). -/
def sortDescBy {α : Type} (key : α → Int) (l : List α) : List α :=
  l.foldl (fun acc x => insertDescBy key x acc) []

/-- Python `str.lower()` (ASCII model). -/
def pyLower (s : List Char) : List Char := s.map Char.toLower

/-- Association-list lookup where a duplicate key keeps the last binding
(the dict that `json.loads` builds): later bindings take priority. -/
def pyLookup {α : Type} : List (List Char × α) → List Char → Option α
  | [], _ => none
  | kv :: rest, k =>
    match pyLookup rest k with
    | some v => some v
    | none => if kv.1 = k then some kv.2 else none

/-! ## Dictionary compression (`neoflow/agent/dictionary_compression.py`)

The three `re.findall` pattern miners are modeled by direct left-to-right
scanners implementing the respective regex semantics. -/

/-- `\w` of the path/identifier regexes (ASCII model). -/
def isWordChar (c : Char) : Bool :=
  ('a' ≤ c && c ≤ 'z') || ('A' ≤ c && c ≤ 'Z') || ('0' ≤ c && c ≤ '9') || c = '_'

/-- Characters matched by the `[/\w.-]` class of the path regex. -/
def isPathChar (c : Char) : Bool := c = '/' || isWordChar c || c = '.' || c = '-'

/-- Generic `re.findall` driver: at each position ask the matcher for a
match length; on success emit the match and continue after it, otherwise
advance one character.  The matcher also receives the previous character
(for word boundaries).  Fuel is one unit per step. -/
def scanAllGo (matcher : Option Char → List Char → Option Nat) :
    Nat → Option Char → List Char → List (List Char)
  | _, _, [] => []
  | 0, _, _ => []
  | fuel + 1, prev, s@(c :: rest) =>
    match matcher prev s with
    | some (n + 1) =>
      (s.take (n + 1)) :: scanAllGo matcher fuel ((s.take (n + 1)).getLast?) (s.drop (n + 1))
    | _ => scanAllGo matcher fuel (some c) rest

def pyFindAll (matcher : Option Char → List Char → Option Nat) (s : List Char) :
    List (List Char) :=
  scanAllGo matcher s.length none s

/-- Match length at the current position for `(?:[/\w.-]+/){2,}[\w.-]+`.
The group part consumed up to a slash at index `p` decomposes into at
least two `[/\w.-]+/` chunks exactly when some other slash sits at an
index in `[1, p-2]`; the match then continues with the non-slash run
after `p`, and the regex engine yields the largest such end. -/
def pathMatchLen (_prev : Option Char) (s : List Char) : Option Nat :=
  let run := s.takeWhile isPathChar
  let slashes := (run.enum.filter (fun ic => ic.2 = '/')).map (fun ic => ic.1)
  let candidates := slashes.filterMap (fun p =>
    let valid := slashes.any (fun i => 1 ≤ i && i + 2 ≤ p)
    let tail := ((run.drop (p + 1)).takeWhile (fun c => isPathChar c && c ≠ '/')).length
    if valid && tail ≠ 0 then some (p + 1 + tail) else none)
  match candidates.getLast? with
  | some e => some e
  | none => none

/-- Match length for `https?://[^\s]+`. -/
def urlMatchLen (_prev : Option Char) (s : List Char) : Option Nat :=
  let go (base : Nat) : Option Nat :=
    let t := ((s.drop base).takeWhile (fun c => !isPySpace c)).length
    if t = 0 then none else some (base + t)
  if ("https://".data).isPrefixOf s then go 8
  else if ("http://".data).isPrefixOf s then go 7
  else none

/-- Separator class `[._:]` of the identifier regex (note `_` is also a
word character, which forces genuine backtracking). -/
def isIdentSep (c : Char) : Bool := c = '.' || c = '_' || c = ':'

/-- All (length, group-count) outcomes of the chain `(?:[._:]\w+)*` at this
position, in the regex engine's backtracking preference order (more groups
first, longer word runs first, the empty chain last).  Fuel bounds the
group count. -/
def allChains : Nat → List Char → List (Nat × Nat)
  | 0, _ => [(0, 0)]
  | fuel + 1, s =>
    (match s with
     | sep :: rest =>
       if isIdentSep sep then
         let maxw := (rest.takeWhile isWordChar).length
         ((List.range maxw).map (fun k => maxw - k)).flatMap (fun w =>
           (allChains fuel (rest.drop w)).map (fun lc => (1 + w + lc.1, 1 + lc.2)))
       else []
     | [] => []) ++ [(0, 0)]

/-- Match length for `\b\w+(?:[._:]\w+){2,}\b`: a word boundary before the
match, then the first outcome in backtracking preference order (outer word
run longest first) with at least two groups and a word boundary after. -/
def identMatchLen (prev : Option Char) (s : List Char) : Option Nat :=
  let boundaryOk := match prev with
    | some p => !isWordChar p
    | none => true
  if !boundaryOk then none
  else
    let maxw0 := (s.takeWhile isWordChar).length
    ((List.range maxw0).map (fun k => maxw0 - k)).findSome? (fun w0 =>
      (allChains s.length (s.drop w0)).findSome? (fun lc =>
        let endOk := match (s.drop (w0 + lc.1)).head? with
          | some c => !isWordChar c
          | none => true
        if 2 ≤ lc.2 && endOk then some (w0 + lc.1) else none))

/-- All length-`w` sliding word windows joined by single spaces
(`" ".join(words[i : i + w])` for each valid `i`). -/
def slidingPhrases (words : List (List Char)) (w : Nat) : List (List Char) :=
  (List.range (words.length + 1 - w)).map (fun i => joinSep [' '] ((words.drop i).take w))

/-- `_find_frequent_patterns`: word n-grams (window sizes 10 down to 3),
path-like, URL-like and dotted-identifier matches; then keep, in first
occurrence order, those with at least `min_occurrences` hits and length at
least `min_pattern_length`. -/
def find_frequent_patterns (text : List Char) (minPatLen minOcc : Nat) :
    List (List Char) :=
  let words := splitWs text
  let ngrams := [10, 9, 8, 7, 6, 5, 4, 3].flatMap (fun w =>
    (slidingPhrases words w).filter (fun p => minPatLen ≤ p.length))
  let patterns := ngrams ++ pyFindAll pathMatchLen text ++
    pyFindAll urlMatchLen text ++ pyFindAll identMatchLen text
  (dedupFirst patterns).filter (fun p =>
    minOcc ≤ countEq patterns p && minPatLen ≤ p.length)

/-- The greedy selection loop of `_select_best_patterns`: take candidates in
savings order, skip any that is a substring of / has as substring an
already-selected pattern, stop at `max_dictionary_size`. -/
def greedySelectGo : List (List Char) → List (List Char) → Nat → List (List Char)
  | [], sel, _ => sel
  | p :: ps, sel, maxDict =>
    if maxDict ≤ sel.length then sel
    else if sel.any (fun q => hasSub q p || hasSub p q) then greedySelectGo ps sel maxDict
    else greedySelectGo ps (sel ++ [p]) maxDict

/-- `_select_best_patterns`: savings `(len(pattern) - token_length) * count`
(where the token length estimate is 3 if more than 10 candidates, else 2),
keep positive-savings candidates, stable-sort by savings descending,
greedily select non-overlapping ones, then stable-sort the selection by
length descending. -/
def select_best_patterns (patterns : List (List Char)) (text : List Char)
    (maxDict : Nat) : List (List Char) :=
  if patterns = [] then []
  else
    let tokenLength : Nat := if 10 < patterns.length then 3 else 2
    let patternSavings := patterns.filterMap (fun p =>
      let count := pyCount text p
      let savings : Int := ((p.length : Int) - (tokenLength : Int)) * (count : Int)
      if 0 < savings then some (p, savings) else none)
    let sorted := sortDescBy (fun ps => ps.2) patternSavings
    let selected := greedySelectGo (sorted.map (fun ps => ps.1)) [] maxDict
    sortDescBy (fun p => (p.length : Int)) selected

structure CompressionResult where
  compressed_text : List Char
  dictionary : List (List Char × List Char)
  original_size : Nat
  compressed_size : Nat
  compression_ratio : ℚ
deriving DecidableEq, Repr

/-- The token for dictionary slot `idx`: the marker character `Đ` followed
by the decimal index. -/
def tokC (idx : Nat) : List Char := 'Đ' :: (Nat.repr idx).data

/-- `compress_text`. -/
def compress_text (text : List Char) (minPatLen : Nat := 10) (minOcc : Nat := 3)
    (maxDict : Nat := 100) : CompressionResult :=
  if text = [] || text.length < minPatLen * minOcc then
    ⟨text, [], text.length, text.length, 1⟩
  else
    let patterns := find_frequent_patterns text minPatLen minOcc
    let selected := select_best_patterns patterns text maxDict
    if selected = [] then ⟨text, [], text.length, text.length, 1⟩
    else
      let dictionary := selected.enum.map (fun ip => (tokC ip.1, ip.2))
      let compressed := selected.enum.foldl
        (fun acc ip => pyReplace acc ip.2 (tokC ip.1)) text
      ⟨compressed, dictionary, text.length, compressed.length,
        if 0 < text.length then (compressed.length : ℚ) / (text.length : ℚ) else 1⟩

/-- `token_sort_key`: the numeric id parsed from the token after the marker
character, with fallback 0 when unparsable (Python `int` raising). -/
def parseNatDigits (s : List Char) : Option Nat :=
  if s ≠ [] && s.all (fun c => '0' ≤ c && c ≤ '9') then
    some (s.foldl (fun acc c => acc * 10 + (c.toNat - '0'.toNat)) 0)
  else none

def token_sort_key (token : List Char) : Nat := (parseNatDigits (token.drop 1)).getD 0

/-- `decompress_text`: replace tokens by their patterns in descending
numeric-id order. -/
def decompress_text (compressed : List Char)
    (dictionary : List (List Char × List Char)) : List Char :=
  if dictionary = [] then compressed
  else
    let keys := dedupFirst (dictionary.map (fun kv => kv.1))
    let sorted := sortDescBy (fun k => (token_sort_key k : Int)) keys
    sorted.foldl (fun acc tok => pyReplace acc tok ((pyLookup dictionary tok).getD [])) compressed

/-- `should_compress`: both a character-count and an estimated-token-count
floor.  The estimate is `len(text) / 4` (float division, exact for a
divisor of 4), and `len/4 ≥ minTok` is exactly `4 * minTok ≤ len`. -/
def should_compress (text : List Char) (minChars : Nat := 5000)
    (minTok : Nat := 1000) : Bool :=
  if text.length < minChars then false
  else decide (4 * minTok ≤ text.length)

/-! ## Round-trip machinery for dictionary compression -/

theorem occursIn_cons (w : List Char) (c : Char) (l : List Char) :
    occursIn w (c :: l) ↔ w <+: (c :: l) ∨ occursIn w l := by
  rw [← hasSub_iff_occursIn, ← hasSub_iff_occursIn]
  simp [hasSub, List.isPrefixOf_iff_prefix]

theorem occursIn_of_occursIn_drop {w s : List Char} {k : Nat}
    (h : occursIn w (s.drop k)) : occursIn w s := by
  rcases h with ⟨a, b, hab⟩
  refine ⟨s.take k ++ a, b, ?_⟩
  calc s = s.take k ++ s.drop k := (List.take_append_drop k s).symm
    _ = s.take k ++ (a ++ w ++ b) := by rw [hab]
    _ = s.take k ++ a ++ w ++ b := by simp

theorem not_occursIn_of_head_notMem {x : Char} {u s : List Char}
    (h : x ∉ s) : ¬ occursIn (x :: u) s := by
  rintro ⟨a, b, rfl⟩
  exact h (by simp)

theorem replA_fuel_irrel (old new : List Char) :
    ∀ n s f₁ f₂, s.length ≤ n → s.length ≤ f₁ → s.length ≤ f₂ →
      replA old new f₁ s = replA old new f₂ s := by
  intro n
  induction n with
  | zero =>
    intro s f₁ f₂ hn _ _
    have : s = [] := List.length_eq_zero.mp (Nat.le_zero.mp hn)
    subst this
    cases f₁ <;> cases f₂ <;> rfl
  | succ n ih =>
    intro s f₁ f₂ hn h₁ h₂
    cases s with
    | nil => cases f₁ <;> cases f₂ <;> rfl
    | cons c rest =>
      cases f₁ with
      | zero => exact absurd h₁ (by simp)
      | succ f₁ =>
        cases f₂ with
        | zero => exact absurd h₂ (by simp)
        | succ f₂ =>
          simp only [replA]
          by_cases hp : old ≠ [] ∧ old.isPrefixOf (c :: rest)
          · simp only [if_pos hp]
            congr 1
            have hlen : (List.drop (old.length - 1) rest).length ≤ rest.length := by
              simp [Nat.sub_le]
            exact ih _ _ _ (le_trans hlen (Nat.succ_le_succ_iff.mp hn))
              (le_trans hlen (Nat.succ_le_succ_iff.mp h₁))
              (le_trans hlen (Nat.succ_le_succ_iff.mp h₂))
          · simp only [if_neg hp]
            congr 1
            exact ih _ _ _ (Nat.succ_le_succ_iff.mp hn) (Nat.succ_le_succ_iff.mp h₁)
              (Nat.succ_le_succ_iff.mp h₂)

theorem pyReplace_cons_pos {old : List Char} (new : List Char) {c : Char} {rest : List Char}
    (hne : old ≠ []) (hp : old.isPrefixOf (c :: rest)) :
    pyReplace (c :: rest) old new =
      new ++ pyReplace (List.drop (old.length - 1) rest) old new := by
  show replA old new (rest.length + 1) (c :: rest) = _
  simp only [replA, if_pos (And.intro hne hp)]
  congr 1
  apply replA_fuel_irrel old new rest.length <;> simp [Nat.sub_le]

theorem pyReplace_cons_neg {old : List Char} (new : List Char) {c : Char} {rest : List Char}
    (hp : ¬ (old ≠ [] ∧ old.isPrefixOf (c :: rest))) :
    pyReplace (c :: rest) old new = c :: pyReplace rest old new := by
  show replA old new (rest.length + 1) (c :: rest) = _
  simp only [replA, if_neg hp]
  rfl

theorem pyReplace_head {p : List Char} (hp : p ≠ []) (d : Char) (c : Char) (rest : List Char) :
    (pyReplace (c :: rest) p ['Đ', d]).head? =
      some (if p.isPrefixOf (c :: rest) then 'Đ' else c) := by
  by_cases h : p.isPrefixOf (c :: rest)
  · rw [pyReplace_cons_pos _ hp h, if_pos h]
    rfl
  · rw [pyReplace_cons_neg _ (fun hc => h hc.2), if_neg h]
    rfl

theorem occursIn_cons_of {w : List Char} {c : Char} {l : List Char} (h : occursIn w l) :
    occursIn w (c :: l) := (occursIn_cons w c l).mpr (Or.inr h)

theorem not_occursIn_nil {w : List Char} (hw : w ≠ []) : ¬ occursIn w [] := by
  rintro ⟨a, b, h⟩
  rcases List.append_eq_nil.mp h.symm with ⟨h1, -⟩
  exact hw (List.append_eq_nil.mp h1).2

theorem drop_pred_cons {p : List Char} (hp : p ≠ []) (c : Char) (rest : List Char) :
    List.drop (p.length - 1) rest = List.drop p.length (c :: rest) := by
  cases p with
  | nil => exact absurd rfl hp
  | cons q qs => simp

/-- Single-step inverse: replacing pattern `p` by the two-character token
`Đd` and then the token back by `p` restores `s`, provided the token does
not already occur in `s`. -/
theorem replace_token_inv :
    ∀ n (s : List Char), s.length ≤ n → ∀ (p : List Char) (d : Char),
      p ≠ [] → d ≠ 'Đ' → ¬ occursIn ['Đ', d] s →
      pyReplace (pyReplace s p ['Đ', d]) ['Đ', d] p = s := by
  intro n
  induction n with
  | zero =>
    intro s hn p d hp hd hno
    have : s = [] := List.length_eq_zero.mp (Nat.le_zero.mp hn)
    subst this; rfl
  | succ n ih =>
    intro s hn p d hp hd hno
    cases s with
    | nil => rfl
    | cons c rest =>
      have hrest : rest.length ≤ n := Nat.succ_le_succ_iff.mp hn
      by_cases hpre : p.isPrefixOf (c :: rest)
      · rw [pyReplace_cons_pos _ hp hpre]
        set s' := List.drop (p.length - 1) rest with hs'
        have hs'eq : s' = List.drop p.length (c :: rest) := drop_pred_cons hp c rest
        have hlen' : s'.length ≤ n := by
          have : s'.length ≤ rest.length := by simp [hs', Nat.sub_le]
          exact le_trans this hrest
        have hno' : ¬ occursIn ['Đ', d] s' := by
          intro hocc
          exact hno (occursIn_of_occursIn_drop (hs'eq ▸ hocc))
        show pyReplace ('Đ' :: d :: pyReplace s' p ['Đ', d]) ['Đ', d] p = c :: rest
        rw [pyReplace_cons_pos p (by simp) (by simp [List.isPrefixOf_iff_prefix])]
        simp only [List.length_cons, List.length_cons, List.length_nil]
        rw [show (0 + 1 + 1 - 1 : Nat) = 1 by rfl]
        show p ++ pyReplace (pyReplace s' p ['Đ', d]) ['Đ', d] p = c :: rest
        rw [ih s' hlen' p d hp hd hno']
        have := List.prefix_iff_eq_append.mp (List.isPrefixOf_iff_prefix.mp hpre)
        rw [hs'eq]
        exact this
      · rw [pyReplace_cons_neg _ (fun hc => hpre hc.2)]
        set R := pyReplace rest p ['Đ', d] with hR
        have hnotok : ¬ (['Đ', d].isPrefixOf (c :: R)) := by
          intro hpref
          rw [List.isPrefixOf_iff_prefix] at hpref
          rcases (List.cons_prefix_cons.mp hpref) with ⟨hc, htail⟩
          subst hc
          cases rest with
          | nil =>
            rw [hR] at htail
            simp [pyReplace, replA] at htail
          | cons c2 rest2 =>
            have hhead := pyReplace_head hp d c2 rest2
            rw [← hR] at hhead
            rcases htail with ⟨t, ht⟩
            have : R.head? = some d := by rw [← ht]; rfl
            rw [hhead] at this
            by_cases hpre2 : p.isPrefixOf (c2 :: rest2)
            · rw [if_pos hpre2] at this
              exact hd (Option.some.injEq .. ▸ this).symm
            · rw [if_neg hpre2] at this
              have hc2 : c2 = d := by injection this
              exact hno ⟨[], rest2, by simp [hc2]⟩
        rw [pyReplace_cons_neg _ (fun hc => hnotok hc.2)]
        have hnorest : ¬ occursIn ['Đ', d] rest := fun h => hno (occursIn_cons_of h)
        rw [ih rest hrest p d hp hd hnorest]

/-- Replacing pattern `p` by token `Đd` cannot create an occurrence of a
different token `Đe`. -/
theorem replace_token_preserve :
    ∀ n (s : List Char), s.length ≤ n → ∀ (p : List Char) (d e : Char),
      p ≠ [] → d ≠ 'Đ' → e ≠ 'Đ' → e ≠ d → ¬ occursIn ['Đ', e] s →
      ¬ occursIn ['Đ', e] (pyReplace s p ['Đ', d]) := by
  intro n
  induction n with
  | zero =>
    intro s hn p d e hp hd he hed hno
    have : s = [] := List.length_eq_zero.mp (Nat.le_zero.mp hn)
    subst this
    exact not_occursIn_nil (by simp)
  | succ n ih =>
    intro s hn p d e hp hd he hed hno
    cases s with
    | nil => exact not_occursIn_nil (by simp)
    | cons c rest =>
      have hrest : rest.length ≤ n := Nat.succ_le_succ_iff.mp hn
      by_cases hpre : p.isPrefixOf (c :: rest)
      · rw [pyReplace_cons_pos _ hp hpre]
        set s' := List.drop (p.length - 1) rest with hs'
        have hs'eq : s' = List.drop p.length (c :: rest) := drop_pred_cons hp c rest
        have hlen' : s'.length ≤ n :=
          le_trans (by simp [hs', Nat.sub_le]) hrest
        have hno' : ¬ occursIn ['Đ', e] s' := fun hocc =>
          hno (occursIn_of_occursIn_drop (hs'eq ▸ hocc))
        show ¬ occursIn ['Đ', e] ('Đ' :: d :: pyReplace s' p ['Đ', d])
        intro hocc
        rcases (occursIn_cons _ _ _).mp hocc with hpref | hocc2
        · rcases List.cons_prefix_cons.mp hpref with ⟨-, htail⟩
          rcases List.cons_prefix_cons.mp htail with ⟨hede, -⟩
          exact hed hede
        · rcases (occursIn_cons _ _ _).mp hocc2 with hpref | hocc3
          · rcases List.cons_prefix_cons.mp hpref with ⟨hdd, -⟩
            exact hd hdd.symm
          · exact ih s' hlen' p d e hp hd he hed hno' hocc3
      · rw [pyReplace_cons_neg _ (fun hc => hpre hc.2)]
        set R := pyReplace rest p ['Đ', d] with hR
        intro hocc
        rcases (occursIn_cons _ _ _).mp hocc with hpref | hocc2
        · rcases List.cons_prefix_cons.mp hpref with ⟨hc, htail⟩
          subst hc
          cases rest with
          | nil =>
            rw [hR] at htail
            simp [pyReplace, replA] at htail
          | cons c2 rest2 =>
            have hhead := pyReplace_head hp d c2 rest2
            rw [← hR] at hhead
            rcases htail with ⟨t, ht⟩
            have hRh : R.head? = some e := by rw [← ht]; rfl
            rw [hhead] at hRh
            by_cases hpre2 : p.isPrefixOf (c2 :: rest2)
            · rw [if_pos hpre2] at hRh
              exact he (by injection hRh with h; exact h.symm)
            · rw [if_neg hpre2] at hRh
              have hc2 : c2 = e := by injection hRh
              exact hno ⟨[], rest2, by simp [hc2]⟩
        · have hnorest : ¬ occursIn ['Đ', e] rest := fun h => hno (occursIn_cons_of h)
          exact ih rest hrest p d e hp hd he hed hnorest hocc2

/-- The sequence of replacements performed by `compress_text` starting at
dictionary slot `i`. -/
def compressSteps : List (List Char) → Nat → List Char → List Char
  | [], _, t => t
  | p :: ps, i, t => compressSteps ps (i + 1) (pyReplace t p (tokC i))

/-- The sequence of replacements performed by `decompress_text` (tokens in
descending id order: the highest id is applied innermost/first). -/
def decompressSteps : List (List Char) → Nat → List Char → List Char
  | [], _, t => t
  | p :: ps, i, t => pyReplace (decompressSteps ps (i + 1) t) (tokC i) p

theorem tokC_lt_ten : ∀ j, j < 10 → tokC j = ['Đ', Nat.digitChar j] := by decide

theorem digitChar_ne_marker : ∀ j, j < 10 → Nat.digitChar j ≠ 'Đ' := by decide

theorem digitChar_inj_lt_ten :
    ∀ i, i < 10 → ∀ j, j < 10 → i ≠ j → Nat.digitChar i ≠ Nat.digitChar j := by decide

/-- Round trip of the replacement sequences: for at most 10 single-digit
tokens none of which occurs in the input, decompression inverts
compression exactly. -/
theorem steps_roundtrip :
    ∀ (ps : List (List Char)) (i : Nat) (t : List Char),
      (∀ p ∈ ps, p ≠ []) → i + ps.length ≤ 10 →
      (∀ j, i ≤ j → j < 10 → ¬ occursIn (tokC j) t) →
      decompressSteps ps i (compressSteps ps i t) = t := by
  intro ps
  induction ps with
  | nil => intro i t _ _ _; rfl
  | cons p rest ih =>
    intro i t hps hle hno
    have hi : i < 10 := by
      have := hle
      simp only [List.length_cons] at this
      omega
    have hpne : p ≠ [] := hps p (by simp)
    have htok : tokC i = ['Đ', Nat.digitChar i] := tokC_lt_ten i hi
    show pyReplace
        (decompressSteps rest (i + 1) (compressSteps rest (i + 1) (pyReplace t p (tokC i))))
        (tokC i) p = t
    have hno1 : ∀ j, i + 1 ≤ j → j < 10 → ¬ occursIn (tokC j) (pyReplace t p (tokC i)) := by
      intro j hj1 hj2
      rw [tokC_lt_ten j hj2, htok]
      exact replace_token_preserve t.length t le_rfl p (Nat.digitChar i) (Nat.digitChar j)
        hpne (digitChar_ne_marker i hi) (digitChar_ne_marker j hj2)
        (digitChar_inj_lt_ten j hj2 i hi (by omega))
        (by rw [← tokC_lt_ten j hj2]; exact hno j (by omega) hj2)
    have hih := ih (i + 1) (pyReplace t p (tokC i))
      (fun q hq => hps q (by simp [hq]))
      (by simp only [List.length_cons] at hle; omega) hno1
    rw [hih]
    rw [htok]
    exact replace_token_inv t.length t le_rfl p (Nat.digitChar i) hpne
      (digitChar_ne_marker i hi) (by rw [← htok]; exact hno i le_rfl hi)

theorem enum_foldl_compress :
    ∀ (sel : List (List Char)) (i : Nat) (t : List Char),
      (List.enumFrom i sel).foldl (fun acc ip => pyReplace acc ip.2 (tokC ip.1)) t =
        compressSteps sel i t := by
  intro sel
  induction sel with
  | nil => intro i t; rfl
  | cons p rest ih =>
    intro i t
    show (List.enumFrom (i + 1) rest).foldl _ (pyReplace t p (tokC i)) = _
    rw [ih]
    rfl

theorem mem_insertDescBy {α : Type} (key : α → Int) (x y : α) :
    ∀ l, y ∈ insertDescBy key x l → y = x ∨ y ∈ l := by
  intro l
  induction l with
  | nil => intro h; simpa [insertDescBy] using h
  | cons z zs ih =>
    intro h
    simp only [insertDescBy] at h
    by_cases hk : key z < key x
    · rw [if_pos hk] at h
      simp only [List.mem_cons] at h
      rcases h with h | h | h
      · exact Or.inl h
      · exact Or.inr (by simp [h])
      · exact Or.inr (by simp [h])
    · rw [if_neg hk] at h
      simp only [List.mem_cons] at h
      rcases h with h | h
      · exact Or.inr (by simp [h])
      · rcases ih h with h | h
        · exact Or.inl h
        · exact Or.inr (by simp [h])

theorem mem_sortDescBy {α : Type} (key : α → Int) (l : List α) (y : α) :
    y ∈ sortDescBy key l → y ∈ l := by
  suffices h : ∀ (l : List α) (acc : List α),
      y ∈ l.foldl (fun acc x => insertDescBy key x acc) acc → y ∈ acc ∨ y ∈ l by
    intro hy
    rcases h l [] hy with h1 | h1
    · simp at h1
    · exact h1
  intro l
  induction l with
  | nil => intro acc h; exact Or.inl h
  | cons z zs ih =>
    intro acc h
    rcases ih (insertDescBy key z acc) h with h1 | h1
    · rcases mem_insertDescBy key z y acc h1 with h2 | h2
      · exact Or.inr (by simp [h2])
      · exact Or.inl h2
    · exact Or.inr (by simp [h1])

theorem mem_greedySelectGo :
    ∀ (l sel : List (List Char)) (maxD : Nat) (q : List Char),
      q ∈ greedySelectGo l sel maxD → q ∈ sel ∨ q ∈ l := by
  intro l
  induction l with
  | nil => intro sel maxD q h; exact Or.inl h
  | cons p ps ih =>
    intro sel maxD q h
    simp only [greedySelectGo] at h
    by_cases h1 : maxD ≤ sel.length
    · rw [if_pos h1] at h; exact Or.inl h
    · rw [if_neg h1] at h
      by_cases h2 : sel.any (fun r => hasSub r p || hasSub p r)
      · rw [if_pos h2] at h
        rcases ih sel maxD q h with h3 | h3
        · exact Or.inl h3
        · exact Or.inr (by simp [h3])
      · rw [if_neg h2] at h
        rcases ih (sel ++ [p]) maxD q h with h3 | h3
        · rcases List.mem_append.mp h3 with h4 | h4
          · exact Or.inl h4
          · exact Or.inr (by simp at h4; simp [h4])
        · exact Or.inr (by simp [h3])

theorem select_best_patterns_length {pats : List (List Char)} {text : List Char}
    {maxD : Nat} {p : List Char} (hp : p ∈ select_best_patterns pats text maxD) :
    2 < p.length := by
  by_cases hne : pats = []
  · rw [select_best_patterns, if_pos hne] at hp
    simp at hp
  · rw [select_best_patterns, if_neg hne] at hp
    simp only at hp
    have h1 := mem_sortDescBy _ _ _ hp
    rcases mem_greedySelectGo _ _ _ _ h1 with h2 | h2
    · simp at h2
    · rcases List.mem_map.mp h2 with ⟨pr, hpr, hfst⟩
      have h3 := mem_sortDescBy _ _ _ hpr
      rcases List.mem_filterMap.mp h3 with ⟨a, -, ha⟩
      set tokenLength : Nat := if 10 < pats.length then 3 else 2 with htl
      by_cases hpos : (0 : Int) < ((a.length : Int) - (tokenLength : Int)) * (pyCount text a : Int)
      · rw [if_pos hpos] at ha
        have hpa : p = a := by
          have h5 := Option.some.inj ha
          rw [← h5] at hfst
          exact hfst.symm
        subst hpa
        have hlt : (tokenLength : Int) < (p.length : Int) := by
          rcases mul_pos_iff.mp hpos with ⟨h5, -⟩ | ⟨-, h6⟩
          · omega
          · omega
        have hlt2 : tokenLength < p.length := by exact_mod_cast hlt
        have htl2 : (2 : Nat) ≤ tokenLength := by
          rw [htl]
          by_cases h : 10 < pats.length <;> simp [h]
        omega
      · rw [if_neg hpos] at ha
        exact absurd ha (by simp)

theorem tokC_inj_lt_ten : ∀ i, i < 10 → ∀ j, j < 10 → tokC i = tokC j → i = j := by decide

/-- The dictionary produced by `compress_text`, restricted to slots `≥ i`. -/
def dictFrom (sel : List (List Char)) (i : Nat) : List (List Char × List Char) :=
  (List.enumFrom i sel).map (fun ip => (tokC ip.1, ip.2))

theorem pyLookup_cons_some {α : Type} {kv : List Char × α} {rest : List (List Char × α)}
    {k : List Char} {v : α} (h : pyLookup rest k = some v) :
    pyLookup (kv :: rest) k = some v := by
  simp [pyLookup, h]

theorem pyLookup_cons_none {α : Type} {kv : List Char × α} {rest : List (List Char × α)}
    {k : List Char} (h : pyLookup rest k = none) :
    pyLookup (kv :: rest) k = if kv.1 = k then some kv.2 else none := by
  simp [pyLookup, h]

theorem dictFrom_cons (p : List Char) (rest : List (List Char)) (i : Nat) :
    dictFrom (p :: rest) i = (tokC i, p) :: dictFrom rest (i + 1) := rfl

theorem dictFrom_lookup_none :
    ∀ (sel : List (List Char)) (i : Nat) (k : List Char),
      (∀ m, i ≤ m → m < i + sel.length → tokC m ≠ k) →
      pyLookup (dictFrom sel i) k = none := by
  intro sel
  induction sel with
  | nil => intro i k _; rfl
  | cons p rest ih =>
    intro i k h
    rw [dictFrom_cons]
    rw [pyLookup_cons_none (ih (i + 1) k (fun m h1 h2 => by
      refine h m (by omega) ?_
      simp only [List.length_cons]
      omega))]
    simp [h i le_rfl (by simp)]

theorem dictFrom_lookup :
    ∀ (sel : List (List Char)) (i : Nat), i + sel.length ≤ 10 →
      ∀ j, j < sel.length →
        pyLookup (dictFrom sel i) (tokC (i + j)) = some (sel.getD j []) := by
  intro sel
  induction sel with
  | nil => intro i _ j hj; simp at hj
  | cons p rest ih =>
    intro i hle j hj
    simp only [List.length_cons] at hle
    rw [dictFrom_cons]
    cases j with
    | zero =>
      simp only [Nat.add_zero]
      rw [pyLookup_cons_none (dictFrom_lookup_none rest (i + 1) (tokC i)
        (fun m h1 h2 => by
          intro heq
          have hm : m < 10 := by omega
          have hi : i < 10 := by omega
          have := tokC_inj_lt_ten m hm i hi heq
          omega))]
      simp
    | succ j' =>
      rw [show i + (j' + 1) = (i + 1) + j' by omega]
      rw [pyLookup_cons_some (ih (i + 1) (by omega) j' (by simp at hj; omega))]
      rfl

theorem keys_dedup_sort :
    ∀ n, n < 11 →
      dedupFirst ((List.range' 0 n).map tokC) = (List.range' 0 n).map tokC ∧
      sortDescBy (fun k => (token_sort_key k : Int)) ((List.range' 0 n).map tokC) =
        ((List.range' 0 n).map tokC).reverse := by decide

theorem enumFrom_map_tok :
    ∀ (sel : List (List Char)) (i : Nat),
      (List.enumFrom i sel).map (fun ip => tokC ip.1) = (List.range' i sel.length).map tokC := by
  intro sel
  induction sel with
  | nil => intro i; rfl
  | cons p rest ih =>
    intro i
    show tokC i :: (List.enumFrom (i + 1) rest).map (fun ip => tokC ip.1) = _
    rw [ih (i + 1)]
    rfl

theorem decompress_foldl_steps :
    ∀ (sel : List (List Char)) (i : Nat) (dict : List (List Char × List Char))
      (X : List Char),
      (∀ j, j < sel.length → pyLookup dict (tokC (i + j)) = some (sel.getD j [])) →
      ((List.range' i sel.length).map tokC).reverse.foldl
        (fun acc tok => pyReplace acc tok ((pyLookup dict tok).getD [])) X =
      decompressSteps sel i X := by
  intro sel
  induction sel with
  | nil => intro i dict X _; rfl
  | cons p rest ih =>
    intro i dict X h
    have hr : List.range' i (p :: rest).length = i :: List.range' (i + 1) rest.length := by
      simp [List.range'_succ]
    rw [hr]
    simp only [List.map_cons, List.reverse_cons, List.foldl_append]
    rw [ih (i + 1) dict X (fun j hj => by
      have := h (j + 1) (by simp; omega)
      rw [show i + (j + 1) = i + 1 + j by omega] at this
      exact this)]
    have h0 := h 0 (by simp)
    rw [Nat.add_zero] at h0
    show pyReplace (decompressSteps rest (i + 1) X) (tokC i) ((pyLookup dict (tokC i)).getD [])
      = decompressSteps (p :: rest) i X
    rw [h0]
    rfl

theorem dictFrom_ne_nil {sel : List (List Char)} (h : sel ≠ []) : dictFrom sel 0 ≠ [] := by
  cases sel with
  | nil => exact absurd rfl h
  | cons p rest => simp [dictFrom_cons]

theorem compress_main_branch (text : List Char) (sel : List (List Char))
    (hsel : sel ≠ []) (hn : sel.length ≤ 10) (hps : ∀ p ∈ sel, p ≠ [])
    (hmarker : 'Đ' ∉ text) :
    decompress_text (sel.enum.foldl (fun acc ip => pyReplace acc ip.2 (tokC ip.1)) text)
      (sel.enum.map (fun ip => (tokC ip.1, ip.2))) = text := by
  have henum : sel.enum = List.enumFrom 0 sel := rfl
  have hdict : sel.enum.map (fun ip => (tokC ip.1, ip.2)) = dictFrom sel 0 := rfl
  rw [hdict]
  rw [decompress_text, if_neg (dictFrom_ne_nil hsel)]
  simp only
  have hkeys : (dictFrom sel 0).map (fun kv => kv.1) = (List.range' 0 sel.length).map tokC := by
    show ((List.enumFrom 0 sel).map (fun ip => (tokC ip.1, ip.2))).map (fun kv => kv.1) = _
    rw [List.map_map]
    exact enumFrom_map_tok sel 0
  rw [hkeys]
  rw [(keys_dedup_sort sel.length (by omega)).1, (keys_dedup_sort sel.length (by omega)).2]
  rw [decompress_foldl_steps sel 0 (dictFrom sel 0) _
    (fun j hj => dictFrom_lookup sel 0 (by omega) j hj)]
  rw [henum, enum_foldl_compress sel 0 text]
  exact steps_roundtrip sel 0 text hps (by omega)
    (fun j _ _ => not_occursIn_of_head_notMem hmarker)

/-- Claim C1 (amended): for every input containing no occurrence of the
token marker character `Đ`, and whenever the produced dictionary has at
most 10 entries (single-digit tokens), decompressing the output of
compression with the dictionary it produced restores the input exactly. -/
theorem C1_compress_decompress_roundtrip (text : List Char)
    (minPatLen minOcc maxDict : Nat) (hmarker : 'Đ' ∉ text)
    (hsize : (compress_text text minPatLen minOcc maxDict).dictionary.length ≤ 10) :
    decompress_text (compress_text text minPatLen minOcc maxDict).compressed_text
      (compress_text text minPatLen minOcc maxDict).dictionary = text := by
  by_cases hguard : (text = [] || decide (text.length < minPatLen * minOcc)) = true
  · rw [compress_text, if_pos hguard]
    simp [decompress_text]
  · rw [compress_text, if_neg hguard] at hsize ⊢
    simp only at hsize ⊢
    by_cases hsel : select_best_patterns (find_frequent_patterns text minPatLen minOcc)
        text maxDict = []
    · rw [if_pos hsel] at hsize ⊢
      simp [decompress_text]
    · rw [if_neg hsel] at hsize ⊢
      simp only at hsize ⊢
      set sel := select_best_patterns (find_frequent_patterns text minPatLen minOcc)
        text maxDict with hseldef
      have hlen : sel.length ≤ 10 := by
        simpa [dictFrom, List.length_map, List.enumFrom_length] using hsize
      exact compress_main_branch text sel hsel hlen
        (fun p hp => by
          have := select_best_patterns_length (hseldef ▸ hp)
          intro hnil
          rw [hnil] at this
          simp at this)
        hmarker

/-- A log-like input that already contains the token marker sequence `Đ0`
and a pattern (three space-separated repetitions of a 10-character word)
that compression will substitute. -/
def markerCollisionInput : List Char :=
  ("Đ0 abcdefghij abcdefghij abcdefghij abcdefghij abcdefghij abcdefghij").data

/-- Claim C1, counterexample: on an input that itself contains the marker
sequence `Đ0`, decompressing the compression output does not restore the
input (the literal `Đ0` in the text is expanded as if it were a token), so
the round-trip equation fails for this input at the default parameters. -/
theorem C1_roundtrip_counterexample :
    decompress_text (compress_text markerCollisionInput 10 3 100).compressed_text
      (compress_text markerCollisionInput 10 3 100).dictionary ≠ markerCollisionInput := by
  decide

/-- The same input without the marker prefix: marker-free, one dictionary
entry. -/
def markerFreeInput : List Char :=
  ("abcdefghij abcdefghij abcdefghij abcdefghij abcdefghij abcdefghij").data

theorem C1_roundtrip_witness :
    'Đ' ∉ markerFreeInput ∧
    (compress_text markerFreeInput 10 3 100).dictionary.length ≤ 10 ∧
    decompress_text (compress_text markerFreeInput 10 3 100).compressed_text
      (compress_text markerFreeInput 10 3 100).dictionary = markerFreeInput :=
  ⟨by decide, by decide,
    C1_compress_decompress_roundtrip markerFreeInput 10 3 100 (by decide) (by decide)⟩

/-! ## JSON values and `json.loads` (Python standard library model)

Numbers keep the int/float distinction (floats as rationals); `NaN` and
`Infinity` keep dedicated constructors.  Object fields are kept in parse
order; a duplicate key keeps the last binding on lookup (`pyLookup`). -/

inductive JNum : Type
  | int (n : Int)
  | float (q : ℚ)
  | nan
  | inf (neg : Bool)

inductive Json : Type
  | null
  | bool (b : Bool)
  | num (n : JNum)
  | str (s : List Char)
  | arr (elems : List Json)
  | obj (fields : List (List Char × Json))

/-- JSON structural whitespace (only these four, per the JSON grammar). -/
def isJsonWs (c : Char) : Bool := c = ' ' || c = '\t' || c = '\n' || c = '\x0d'

def skipJsonWs (s : List Char) : List Char := s.dropWhile isJsonWs

def hexVal (c : Char) : Option Nat :=
  if '0' ≤ c ∧ c ≤ '9' then some (c.toNat - '0'.toNat)
  else if 'a' ≤ c ∧ c ≤ 'f' then some (c.toNat - 'a'.toNat + 10)
  else if 'A' ≤ c ∧ c ≤ 'F' then some (c.toNat - 'A'.toNat + 10)
  else none

def hex4 : List Char → Option (Nat × List Char)
  | c1 :: c2 :: c3 :: c4 :: rest =>
    match hexVal c1, hexVal c2, hexVal c3, hexVal c4 with
    | some h1, some h2, some h3, some h4 => some (((h1 * 16 + h2) * 16 + h3) * 16 + h4, rest)
    | _, _, _, _ => none
  | _ => none

/-- Body of a JSON string after the opening quote (strict mode: raw control
characters are rejected).  Surrogate pairs in `\u` escapes are combined;
a lone surrogate, which Python would keep as a surrogate code unit, is
mapped through `Char.ofNat` (there is no such scalar value in `Char`). -/
def parseStrBody : Nat → List Char → List Char → Option (List Char × List Char)
  | 0, _, _ => none
  | _ + 1, [], _ => none
  | fuel + 1, c :: rest, acc =>
    if c = '"' then some (acc.reverse, rest)
    else if c = '\\' then
      match rest with
      | [] => none
      | e :: rest2 =>
        if e = '"' then parseStrBody fuel rest2 ('"' :: acc)
        else if e = '\\' then parseStrBody fuel rest2 ('\\' :: acc)
        else if e = '/' then parseStrBody fuel rest2 ('/' :: acc)
        else if e = 'b' then parseStrBody fuel rest2 ('\x08' :: acc)
        else if e = 'f' then parseStrBody fuel rest2 ('\x0c' :: acc)
        else if e = 'n' then parseStrBody fuel rest2 ('\n' :: acc)
        else if e = 'r' then parseStrBody fuel rest2 ('\x0d' :: acc)
        else if e = 't' then parseStrBody fuel rest2 ('\t' :: acc)
        else if e = 'u' then
          match hex4 rest2 with
          | none => none
          | some (h, rest3) =>
            if 0xd800 ≤ h ∧ h < 0xdc00 then
              match rest3 with
              | '\\' :: 'u' :: rest4 =>
                match hex4 rest4 with
                | some (l, rest5) =>
                  if 0xdc00 ≤ l ∧ l < 0xe000 then
                    parseStrBody fuel rest5
                      (Char.ofNat (0x10000 + (h - 0xd800) * 0x400 + (l - 0xdc00)) :: acc)
                  else parseStrBody fuel ('\\' :: 'u' :: rest4) (Char.ofNat h :: acc)
                | none => parseStrBody fuel ('\\' :: 'u' :: rest4) (Char.ofNat h :: acc)
              | _ => parseStrBody fuel rest3 (Char.ofNat h :: acc)
            else parseStrBody fuel rest3 (Char.ofNat h :: acc)
        else none
    else if c.toNat < 0x20 then none
    else parseStrBody fuel rest (c :: acc)

def isDigitChar (c : Char) : Bool := '0' ≤ c && c ≤ '9'

def digitsToNat (ds : List Char) : Nat :=
  ds.foldl (fun acc c => acc * 10 + (c.toNat - '0'.toNat)) 0

/-- JSON number grammar `-?(0|[1-9][0-9]*)(\.[0-9]+)?([eE][+-]?[0-9]+)?`;
ints stay ints, anything with a fraction or exponent becomes a float. -/
def parseJsonNumber (s : List Char) : Option (JNum × List Char) :=
  let (neg, s1) : Bool × List Char :=
    match s with
    | '-' :: r => (true, r)
    | _ => (false, s)
  let intDigits := s1.takeWhile isDigitChar
  if intDigits = [] then none
  else if intDigits.length > 1 ∧ intDigits.headD '0' = '0' then none
  else
    let s2 := s1.drop intDigits.length
    let (fracDigits, s3) : List Char × List Char :=
      match s2 with
      | '.' :: r =>
        let fd := r.takeWhile isDigitChar
        (fd, r.drop fd.length)
      | _ => ([], s2)
    if (match s2 with | '.' :: _ => fracDigits.isEmpty | _ => false) then none
    else
      let expPart : Option (Option (Bool × List Char × List Char)) :=
        match s3 with
        | e :: r =>
          if e = 'e' ∨ e = 'E' then
            let (eneg, r2) : Bool × List Char :=
              match r with
              | '+' :: rr => (false, rr)
              | '-' :: rr => (true, rr)
              | _ => (false, r)
            let ed := r2.takeWhile isDigitChar
            if ed = [] then some none else some (some (eneg, ed, r2.drop ed.length))
          else none
        | [] => none
      match expPart with
      | some none => none
      | none =>
        let m : Int := (if neg then -1 else 1) * (digitsToNat (intDigits ++ fracDigits) : Int)
        if fracDigits = [] then some (JNum.int m, s3)
        else some (JNum.float ((m : ℚ) / ((10 : ℚ) ^ fracDigits.length)), s3)
      | some (some (eneg, ed, s4)) =>
        let m : Int := (if neg then -1 else 1) * (digitsToNat (intDigits ++ fracDigits) : Int)
        let e : Int := (if eneg then -1 else 1) * (digitsToNat ed : Int) - (fracDigits.length : Int)
        some (JNum.float ((m : ℚ) * (10 : ℚ) ^ e), s4)

mutual

/-- One JSON value (leading whitespace allowed), returning the rest. -/
def parseJsonValue : Nat → List Char → Option (Json × List Char)
  | 0, _ => none
  | fuel + 1, s =>
    let s := skipJsonWs s
    match s with
    | [] => none
    | c :: rest =>
      if c = '"' then
        match parseStrBody rest.length rest [] with
        | some (str, rest2) => some (Json.str str, rest2)
        | none => none
      else if c = '[' then
        let rest2 := skipJsonWs rest
        match rest2 with
        | ']' :: rest3 => some (Json.arr [], rest3)
        | _ => parseJsonElems fuel [] rest
      else if c = '{' then
        let rest2 := skipJsonWs rest
        match rest2 with
        | '}' :: rest3 => some (Json.obj [], rest3)
        | _ => parseJsonMembers fuel [] rest
      else if ("null".data).isPrefixOf s then some (Json.null, s.drop 4)
      else if ("true".data).isPrefixOf s then some (Json.bool true, s.drop 4)
      else if ("false".data).isPrefixOf s then some (Json.bool false, s.drop 5)
      else if ("NaN".data).isPrefixOf s then some (Json.num JNum.nan, s.drop 3)
      else if ("Infinity".data).isPrefixOf s then some (Json.num (JNum.inf false), s.drop 8)
      else if ("-Infinity".data).isPrefixOf s then some (Json.num (JNum.inf true), s.drop 9)
      else
        match parseJsonNumber s with
        | some (n, rest2) => some (Json.num n, rest2)
        | none => none

/-- Array elements after `[` (at least one element pending). -/
def parseJsonElems : Nat → List Json → List Char → Option (Json × List Char)
  | 0, _, _ => none
  | fuel + 1, acc, s =>
    match parseJsonValue fuel s with
    | none => none
    | some (v, rest) =>
      let rest2 := skipJsonWs rest
      match rest2 with
      | ',' :: rest3 => parseJsonElems fuel (v :: acc) rest3
      | ']' :: rest3 => some (Json.arr (v :: acc).reverse, rest3)
      | _ => none

/-- Object members after `{` (at least one member pending). -/
def parseJsonMembers : Nat → List (List Char × Json) → List Char →
    Option (Json × List Char)
  | 0, _, _ => none
  | fuel + 1, acc, s =>
    let s2 := skipJsonWs s
    match s2 with
    | '"' :: rest =>
      match parseStrBody rest.length rest [] with
      | none => none
      | some (key, rest2) =>
        let rest3 := skipJsonWs rest2
        match rest3 with
        | ':' :: rest4 =>
          match parseJsonValue fuel rest4 with
          | none => none
          | some (v, rest5) =>
            let rest6 := skipJsonWs rest5
            match rest6 with
            | ',' :: rest7 => parseJsonMembers fuel ((key, v) :: acc) rest7
            | '}' :: rest7 => some (Json.obj ((key, v) :: acc).reverse, rest7)
            | _ => none
        | _ => none
    | _ => none

end

/-- `json.loads`: parse one value and require only whitespace after it;
any parse failure (Python `JSONDecodeError`) is `none`. -/
def json_loads (s : List Char) : Option Json :=
  match parseJsonValue (s.length + 1) s with
  | some (v, rest) => if skipJsonWs rest = [] then some v else none
  | none => none

/-! ## Action parsing (`neoflow/search/tools.py`) -/

/-- After the label part of a fenced-block opener: match `\s*\n(.*?)\n\s*```
and return group 1.  The greedy `\s*` backtracks to the last newline of the
whitespace run; the lazy `(.*?)` stops at the first position where
`\n\s*```` matches. -/
def fenceCloseHere (s : List Char) : Bool :=
  match s with
  | '\n' :: rest =>
    (List.range ((rest.takeWhile isPySpace).length + 1)).any
      (fun w => ("```".data).isPrefixOf (rest.drop w))
  | _ => false

def findFenceClose : Nat → List Char → Option Nat
  | 0, _ => none
  | fuel + 1, s =>
    if fenceCloseHere s then some 0
    else
      match s with
      | [] => none
      | _ :: rest => (findFenceClose fuel rest).map (· + 1)

def fenceTail (after : List Char) : Option (List Char) :=
  let wsLen := (after.takeWhile isPySpace).length
  (((List.range wsLen).filter (fun idx => after.getD idx ' ' = '\n')).reverse).findSome?
    (fun idx =>
      let content0 := after.drop (idx + 1)
      (findFenceClose (content0.length + 1) content0).map (fun j => content0.take j))

/-- Group 1 of the first match of ```` ```json\s*\n(.*?)\n\s*``` ````. -/
def searchFencedJson : Nat → List Char → Option (List Char)
  | 0, _ => none
  | fuel + 1, s =>
    match (if ("```json".data).isPrefixOf s then fenceTail (s.drop 7) else none) with
    | some content => some content
    | none =>
      match s with
      | [] => none
      | _ :: rest => searchFencedJson fuel rest

def isAsciiAlpha (c : Char) : Bool := ('a' ≤ c && c ≤ 'z') || ('A' ≤ c && c ≤ 'Z')

/-- Group 1 of the first match of ```` ```[a-zA-Z]*\s*\n(.*?)\n\s*``` ````. -/
def searchFencedAny : Nat → List Char → Option (List Char)
  | 0, _ => none
  | fuel + 1, s =>
    match (if ("```".data).isPrefixOf s then
        fenceTail ((s.drop 3).drop (((s.drop 3).takeWhile isAsciiAlpha).length))
      else none) with
    | some content => some content
    | none =>
      match s with
      | [] => none
      | _ :: rest => searchFencedAny fuel rest

/-- The inner scan of `_extract_json_objects`: balanced-brace scan from a
`{`, tracking string literals and escapes; returns the object text and the
rest, or `none` when the brace never closes. -/
def scanBalanced : Nat → List Char → Nat → Bool → Bool → List Char →
    Option (List Char × List Char)
  | _, [], _, _, _, _ => none
  | 0, _, _, _, _, _ => none
  | fuel + 1, ch :: rest, depth, inStr, esc, acc =>
    if esc then scanBalanced fuel rest depth inStr false (ch :: acc)
    else if ch = '\\' && inStr then scanBalanced fuel rest depth inStr true (ch :: acc)
    else if ch = '"' then scanBalanced fuel rest depth (!inStr) esc (ch :: acc)
    else if inStr then scanBalanced fuel rest depth inStr esc (ch :: acc)
    else if ch = '\x7b' then scanBalanced fuel rest (depth + 1) inStr esc (ch :: acc)
    else if ch = '\x7d' then
      if depth = 1 then some ((ch :: acc).reverse, rest)
      else scanBalanced fuel rest (depth - 1) inStr esc (ch :: acc)
    else scanBalanced fuel rest depth inStr esc (ch :: acc)

/-- `_extract_json_objects`: yield every top-level brace-balanced object;
an unclosed brace stops the scan entirely. -/
def extractJsonObjects : Nat → List Char → List (List Char)
  | 0, _ => []
  | fuel + 1, s =>
    match s with
    | [] => []
    | c :: rest =>
      if c ≠ '\x7b' then extractJsonObjects fuel rest
      else
        match scanBalanced s.length s 0 false false [] with
        | some (obj, rest') => obj :: extractJsonObjects fuel rest'
        | none => []

/-- `re.sub(r",\s*([}\]])", r"\1", ·)`: drop a comma (and the whitespace
after it) that directly precedes a closing brace/bracket. -/
def fixTrailingCommas : Nat → List Char → List Char
  | 0, s => s
  | fuel + 1, s =>
    match s with
    | [] => []
    | ',' :: rest =>
      let wsLen := (rest.takeWhile isPySpace).length
      match (rest.drop wsLen).head? with
      | some c =>
        if c = '\x7d' ∨ c = ']' then c :: fixTrailingCommas fuel (rest.drop (wsLen + 1))
        else ',' :: fixTrailingCommas fuel rest
      | none => ',' :: fixTrailingCommas fuel rest
    | c :: rest => c :: fixTrailingCommas fuel rest

/-- `_try_parse`: accept only a JSON object containing the key `action`. -/
def tryParseAction (candidate : List Char) : Option (List (List Char × Json)) :=
  match json_loads candidate with
  | some (Json.obj fields) =>
    if fields.any (fun kv => kv.1 = ("action").data) then some fields else none
  | _ => none

/-- `parse_action`: fenced ```json block, then any fenced block, then the
brace-counting scan, then the cosmetic fix-up (quote replacement and
trailing-comma removal) re-scanned.  Total failure is `None`. -/
def parse_action (text : List Char) : Option (List (List Char × Json)) :=
  match (searchFencedJson (text.length + 1) text).bind tryParseAction with
  | some d => some d
  | none =>
    match (searchFencedAny (text.length + 1) text).bind tryParseAction with
    | some d => some d
    | none =>
      match (extractJsonObjects (text.length + 1) text).findSome? tryParseAction with
      | some d => some d
      | none =>
        let fixed := fixTrailingCommas text.length
          (text.map (fun c => if c = '\'' then '"' else c))
        (extractJsonObjects (fixed.length + 1) fixed).findSome? tryParseAction

theorem tryParseAction_key {c : List Char} {d : List (List Char × Json)}
    (h : tryParseAction c = some d) :
    d.any (fun kv => kv.1 = ("action").data) = true := by
  unfold tryParseAction at h
  split at h
  · split at h
    · injection h with h
      subst h
      assumption
    · exact absurd h (by simp)
  · exact absurd h (by simp)

theorem bind_tryParseAction_key {o : Option (List Char)} {d : List (List Char × Json)}
    (h : o.bind tryParseAction = some d) :
    d.any (fun kv => kv.1 = ("action").data) = true := by
  cases o with
  | none => exact absurd h (by simp)
  | some c => exact tryParseAction_key (by simpa using h)

theorem findSome?_tryParseAction_key :
    ∀ (l : List (List Char)) {d : List (List Char × Json)},
      l.findSome? tryParseAction = some d →
      d.any (fun kv => kv.1 = ("action").data) = true := by
  intro l
  induction l with
  | nil => intro d h; exact absurd h (by simp)
  | cons c cs ih =>
    intro d h
    rw [List.findSome?_cons] at h
    cases hc : tryParseAction c with
    | some d' =>
      rw [hc] at h
      injection h with h
      exact h ▸ tryParseAction_key hc
    | none =>
      rw [hc] at h
      exact ih h

theorem parse_action_some_key {text : List Char} {d : List (List Char × Json)}
    (h : parse_action text = some d) :
    d.any (fun kv => kv.1 = ("action").data) = true := by
  unfold parse_action at h
  cases h1 : (searchFencedJson (text.length + 1) text).bind tryParseAction with
  | some d1 =>
    rw [h1] at h
    injection h with h
    exact h ▸ bind_tryParseAction_key h1
  | none =>
    rw [h1] at h
    cases h2 : (searchFencedAny (text.length + 1) text).bind tryParseAction with
    | some d2 =>
      rw [h2] at h
      injection h with h
      exact h ▸ bind_tryParseAction_key h2
    | none =>
      rw [h2] at h
      cases h3 : (extractJsonObjects (text.length + 1) text).findSome? tryParseAction with
      | some d3 =>
        rw [h3] at h
        injection h with h
        exact h ▸ findSome?_tryParseAction_key _ h3
      | none =>
        rw [h3] at h
        simp only at h
        exact findSome?_tryParseAction_key _ h

/-- Claim C2: for every input string, `parse_action` returns either a dict
containing the key `action` or `None`.  In this embedding the function is
total by construction (`json.loads` failures are `none`, all scans are
fuel-bounded with sufficient fuel), which models "never raises"; the
theorem states the result shape on every input. -/
theorem C2_parse_action_total (text : List Char) :
    parse_action text = none ∨
    ∃ d, parse_action text = some d ∧
      d.any (fun kv => kv.1 = ("action").data) = true := by
  cases h : parse_action text with
  | none => exact Or.inl rfl
  | some d => exact Or.inr ⟨d, rfl, parse_action_some_key h⟩

/-! ## Context optimizer (`neoflow/agent/context_optimizer.py`)

Messages are dicts `{role, content, _source_action?, _compression_dict?}`,
modeled as a record.  The LLM summarization call (`_summarize_text`,
including its truncation fallback) is an oracle `summarize`; the status
bar is UI state and has no effect on the message list. -/

/-- `estimate_tokens` (`neoflow/status_bar.py`): `max(len(text) // 4,
len(text.split()))`, and 0 for empty text. -/
def estimate_tokens (text : List Char) : Nat :=
  if text = [] then 0 else max (text.length / 4) (splitWs text).length

structure Msg where
  role : List Char
  content : List Char
  sourceAction : Option (List Char) := none
  compressionDict : Option (List (List Char × List Char)) := none
deriving DecidableEq

structure OptimizerConfig where
  compressionEnabled : Bool
  compressionMinChars : Nat
  compressionMinTokens : Nat
  tokenThreshold : Nat
  largeMessageRatio : ℚ

/-- Python `int(threshold * large_message_ratio)` (truncation toward 0):
with the float ratio modeled as the rational `num/den`, the product is
`(threshold * num) / den` and `Int.tdiv` is Python `int()` truncation. -/
def largeLimit (cfg : OptimizerConfig) : Int :=
  Int.tdiv ((cfg.tokenThreshold : Int) * cfg.largeMessageRatio.num)
    (cfg.largeMessageRatio.den : Int)

/-- `ContextOptimizer.add_message`, step 1: tag the source action when it
is truthy (present and non-empty). -/
def tag_source (message : Msg) (sourceAction : Option (List Char)) : Msg :=
  if sourceAction ≠ none ∧ sourceAction ≠ some [] then
    { message with sourceAction := sourceAction }
  else message

/-- `ContextOptimizer.add_message`, step 2: dictionary-compress
`run_command` output when enabled and the threshold check passes and at
least 5% is saved (ratio below 0.95), storing the dictionary as metadata. -/
def compress_step (cfg : OptimizerConfig) (sourceAction : Option (List Char))
    (message : Msg) : Msg :=
  if cfg.compressionEnabled ∧ sourceAction = some (("run_command").data) ∧
      should_compress message.content cfg.compressionMinChars cfg.compressionMinTokens then
    let cr := compress_text message.content
    -- `compression_ratio < 0.95` with `ratio = compressed/original`
    -- (and 1.0 when original is empty) is exactly this integer test
    if 20 * cr.compressed_size < 19 * cr.original_size then
      { message with content := cr.compressed_text, compressionDict := some cr.dictionary }
    else message
  else message

/-- `ContextOptimizer.add_message`, step 3: the large-message pre-check on
the (possibly compressed) content, replacing it with an LLM summary. -/
def summarize_step (cfg : OptimizerConfig) (summarize : List Char → List Char)
    (message : Msg) : Msg :=
  if largeLimit cfg < (estimate_tokens message.content : Int) then
    { message with content := ("[Summarized Result]\n").data ++ summarize message.content }
  else message

/-- `ContextOptimizer.add_message`: the three steps in order, then append. -/
def add_message (cfg : OptimizerConfig) (summarize : List Char → List Char)
    (messages : List Msg) (message : Msg)
    (sourceAction : Option (List Char) := none) : List Msg :=
  messages ++ [summarize_step cfg summarize
    (compress_step cfg sourceAction (tag_source message sourceAction))]

def assistantCount (msgs : List Msg) : Nat :=
  (msgs.filter (fun m => m.role = ("assistant").data)).length

/-- Removing the first `k` assistant messages (deleting the collected
indices in descending order keeps exactly this sublist). -/
def dropAssistant : Nat → List Msg → List Msg
  | 0, msgs => msgs
  | _ + 1, [] => []
  | k + 1, m :: rest =>
    if m.role = ("assistant").data then dropAssistant k rest
    else m :: dropAssistant (k + 1) rest

/-- `_pass_dedup_assistant`: keep only the last 10 assistant messages. -/
def pass_dedup_assistant (msgs : List Msg) : List Msg :=
  if assistantCount msgs ≤ 10 then msgs
  else dropAssistant (assistantCount msgs - 10) msgs

def totalTokens (msgs : List Msg) : Nat :=
  (msgs.map (fun m => estimate_tokens m.content)).sum

/-- `_pass_token_summarization`: when the total estimate exceeds the
threshold, replace the middle section (all but the first 4 and last
`keep_tail` messages) by a single summary message; the early returns
leave the list untouched. -/
def pass_token_summarization (threshold : Nat) (summarize : List Char → List Char)
    (msgs : List Msg) : List Msg :=
  if totalTokens msgs ≤ threshold then msgs
  else
    let keepHead := min 4 msgs.length
    let keepTail := min 4 (msgs.length - keepHead)
    if keepTail = 0 then msgs
    else
      let middle := (msgs.take (msgs.length - keepTail)).drop keepHead
      if middle = [] then msgs
      else
        let combined := joinSep ("\n\n").data
          (middle.map (fun m => ("[").data ++ m.role ++ ("]: ").data ++ m.content))
        let summaryMsg : Msg :=
          { role := ("user").data,
            content := ("[Context Summary]\n").data ++ summarize combined }
        msgs.take keepHead ++ [summaryMsg] ++ msgs.drop (msgs.length - keepTail)

/-- The condition under which `_pass_token_summarization` actually splices
in a summary (none of its early returns fires). -/
def summarizationPerformed (threshold : Nat) (msgs : List Msg) : Bool :=
  threshold < totalTokens msgs &&
  min 4 (msgs.length - min 4 msgs.length) ≠ 0 &&
  (msgs.take (msgs.length - min 4 (msgs.length - min 4 msgs.length))).drop
    (min 4 msgs.length) ≠ []

/-- `ContextOptimizer.optimize`: both passes in order (the trailing
`_update_token_count` only updates the status bar). -/
def optimize (threshold : Nat) (summarize : List Char → List Char)
    (msgs : List Msg) : List Msg :=
  pass_token_summarization threshold summarize (pass_dedup_assistant msgs)

theorem assistantCount_cons (m : Msg) (rest : List Msg) :
    assistantCount (m :: rest) =
      (if m.role = ("assistant").data then 1 else 0) + assistantCount rest := by
  by_cases h : m.role = ("assistant").data <;>
    simp [assistantCount, List.filter_cons, h, Nat.add_comm]

theorem dropAssistant_append :
    ∀ (a : List Msg) (k : Nat) (b : List Msg), k ≤ assistantCount a →
      dropAssistant k (a ++ b) = dropAssistant k a ++ b := by
  intro a
  induction a with
  | nil =>
    intro k b hk
    have : k = 0 := by simpa [assistantCount] using hk
    subst this
    simp [dropAssistant]
  | cons m a' ih =>
    intro k b hk
    cases k with
    | zero => rfl
    | succ k' =>
      rw [assistantCount_cons] at hk
      by_cases hm : m.role = ("assistant").data
      · rw [if_pos hm] at hk
        show dropAssistant (k' + 1) (m :: (a' ++ b)) = _
        simp only [dropAssistant, if_pos hm]
        exact ih k' b (by omega)
      · rw [if_neg hm] at hk
        show dropAssistant (k' + 1) (m :: (a' ++ b)) = _
        simp only [dropAssistant, if_neg hm]
        rw [ih (k' + 1) b (by omega)]
        rfl

theorem assistantCount_append (a b : List Msg) :
    assistantCount (a ++ b) = assistantCount a + assistantCount b := by
  simp [assistantCount, List.filter_append]

theorem assistantCount_le_length (l : List Msg) : assistantCount l ≤ l.length :=
  List.length_filter_le _ _

/-- The dedup pass never touches the last 4 messages (a removed assistant
message has at least 10 assistant messages after it). -/
theorem pass_dedup_drop4 (msgs : List Msg) :
    (pass_dedup_assistant msgs).drop ((pass_dedup_assistant msgs).length - 4) =
      msgs.drop (msgs.length - 4) := by
  unfold pass_dedup_assistant
  by_cases hc : assistantCount msgs ≤ 10
  · rw [if_pos hc]
  · rw [if_neg hc]
    have hlen : 4 ≤ msgs.length := by
      have := assistantCount_le_length msgs
      omega
    set k := assistantCount msgs - 10 with hk
    set a := msgs.take (msgs.length - 4) with ha
    set b := msgs.drop (msgs.length - 4) with hb
    have hab : msgs = a ++ b := (List.take_append_drop _ msgs).symm
    have hblen : b.length = 4 := by
      rw [hb, List.length_drop]
      omega
    have hbcount : assistantCount b ≤ 4 := by
      rw [← hblen]
      exact assistantCount_le_length b
    have hacount : k ≤ assistantCount a := by
      have h2 := assistantCount_append a b
      rw [← hab] at h2
      omega
    have hsplit : dropAssistant k msgs = dropAssistant k a ++ b := by
      conv_lhs => rw [hab]
      exact dropAssistant_append a k b hacount
    rw [hsplit, List.length_append, hblen]
    rw [show (dropAssistant k a).length + 4 - 4 = (dropAssistant k a).length by omega]
    rw [List.drop_left]

theorem pass_dedup_cons (m0 : Msg) (rest : List Msg)
    (h : ¬ m0.role = ("assistant").data) :
    ∃ d', pass_dedup_assistant (m0 :: rest) = m0 :: d' := by
  unfold pass_dedup_assistant
  by_cases hc : assistantCount (m0 :: rest) ≤ 10
  · rw [if_pos hc]
    exact ⟨rest, rfl⟩
  · rw [if_neg hc]
    cases hk : assistantCount (m0 :: rest) - 10 with
    | zero => omega
    | succ k' =>
      show ∃ d', dropAssistant (k' + 1) (m0 :: rest) = m0 :: d'
      simp only [dropAssistant, if_neg h]
      exact ⟨_, rfl⟩

theorem pass_sum_no_op (threshold : Nat) (summarize : List Char → List Char)
    (msgs : List Msg) (h : summarizationPerformed threshold msgs = false) :
    pass_token_summarization threshold summarize msgs = msgs := by
  unfold pass_token_summarization
  by_cases h1 : totalTokens msgs ≤ threshold
  · rw [if_pos h1]
  · rw [if_neg h1]
    simp only
    by_cases h2 : min 4 (msgs.length - min 4 msgs.length) = 0
    · rw [if_pos h2]
    · rw [if_neg h2]
      by_cases h3 : (msgs.take (msgs.length - min 4 (msgs.length - min 4 msgs.length))).drop
          (min 4 msgs.length) = []
      · rw [if_pos h3]
      · exfalso
        unfold summarizationPerformed at h
        simp only [Bool.and_eq_false_iff, decide_eq_false_iff_not, not_not,
          not_lt, Bool.not_eq_true] at h
        rcases h with (h | h) | h
        · omega
        · exact h2 h
        · exact h3 h

theorem summarization_performed_shape (threshold : Nat)
    (summarize : List Char → List Char) (d : List Msg)
    (h : summarizationPerformed threshold d = true) :
    9 ≤ d.length ∧
    ∃ sm, pass_token_summarization threshold summarize d =
      d.take 4 ++ [sm] ++ d.drop (d.length - 4) := by
  unfold summarizationPerformed at h
  simp only [Bool.and_eq_true, decide_eq_true_eq, ne_eq] at h
  obtain ⟨⟨h1, h2⟩, h3⟩ := h
  have hlen5 : 5 ≤ d.length := by omega
  have hhead : min 4 d.length = 4 := by omega
  rw [hhead] at h2 h3
  have hlen9 : 9 ≤ d.length := by
    by_contra hlt
    have h8 : d.length ≤ 8 := by omega
    have hmin : min 4 (d.length - 4) = d.length - 4 := by omega
    rw [hmin] at h3
    apply h3
    apply List.length_eq_zero.mp
    rw [List.length_drop, List.length_take]
    omega
  have htail : min 4 (d.length - 4) = 4 := by omega
  refine ⟨hlen9, ?_⟩
  unfold pass_token_summarization
  rw [if_neg (by omega)]
  simp only [hhead, htail]
  rw [if_neg (by omega)]
  rw [htail] at h3
  rw [if_neg h3]
  exact ⟨_, rfl⟩

theorem drop_tail4 (T D : List Msg) (sm : Msg) (hT : T.length = 4) (hD : D.length = 4) :
    (T ++ [sm] ++ D).drop ((T ++ [sm] ++ D).length - 4) = D := by
  simp only [List.length_append, hT, hD, List.length_singleton]
  rw [show (4 + 1 + 4 - 4 : Nat) = (T ++ [sm]).length by simp [hT]]
  exact List.drop_left _ _

/-- Claim C3: for every message list whose index-0 message has role
`system`, the periodic pass `optimize` keeps that exact message at index
0, and whenever it performs middle-section summarization the most recent
4 messages of the result are exactly the most recent 4 messages of the
input, unchanged. -/
theorem C3_optimize_preserves_system_head_and_recent_tail
    (threshold : Nat) (summarize : List Char → List Char) (m0 : Msg) (rest : List Msg)
    (hrole : m0.role = ("system").data) :
    (∃ d', optimize threshold summarize (m0 :: rest) = m0 :: d') ∧
    (summarizationPerformed threshold (pass_dedup_assistant (m0 :: rest)) = true →
      (optimize threshold summarize (m0 :: rest)).drop
          ((optimize threshold summarize (m0 :: rest)).length - 4) =
        (m0 :: rest).drop ((m0 :: rest).length - 4)) := by
  have hna : ¬ m0.role = ("assistant").data := by
    rw [hrole]
    decide
  obtain ⟨d', hd⟩ := pass_dedup_cons m0 rest hna
  by_cases hperf : summarizationPerformed threshold (pass_dedup_assistant (m0 :: rest)) = true
  · obtain ⟨hlen9, sm, hshape⟩ :=
      summarization_performed_shape threshold summarize _ hperf
    have hopt : optimize threshold summarize (m0 :: rest) =
        (pass_dedup_assistant (m0 :: rest)).take 4 ++ [sm] ++
          (pass_dedup_assistant (m0 :: rest)).drop
            ((pass_dedup_assistant (m0 :: rest)).length - 4) := hshape
    constructor
    · refine ⟨d'.take 3 ++ [sm] ++ (pass_dedup_assistant (m0 :: rest)).drop
        ((pass_dedup_assistant (m0 :: rest)).length - 4), ?_⟩
      rw [hopt, hd]
      rfl
    · intro _
      have htake4 : ((pass_dedup_assistant (m0 :: rest)).take 4).length = 4 := by
        rw [List.length_take]
        omega
      have hdroplen : ((pass_dedup_assistant (m0 :: rest)).drop
          ((pass_dedup_assistant (m0 :: rest)).length - 4)).length = 4 := by
        rw [List.length_drop]
        omega
      rw [hopt, drop_tail4 _ _ _ htake4 hdroplen]
      exact pass_dedup_drop4 (m0 :: rest)
  · have hno : summarizationPerformed threshold (pass_dedup_assistant (m0 :: rest)) = false := by
      simpa using hperf
    constructor
    · refine ⟨d', ?_⟩
      show pass_token_summarization threshold summarize (pass_dedup_assistant (m0 :: rest)) = _
      rw [pass_sum_no_op _ _ _ hno, hd]
    · intro hcontra
      rw [hcontra] at hno
      simp at hno

def c3SystemMsg : Msg := { role := ("system").data, content := ("sys").data }

def c3Rest : List Msg :=
  List.replicate 11 { role := ("assistant").data, content := ("aaaaaaaa").data }

theorem C3_optimize_witness :
    (∃ d', optimize 0 (fun _ => ("S").data) (c3SystemMsg :: c3Rest) = c3SystemMsg :: d') ∧
    (summarizationPerformed 0 (pass_dedup_assistant (c3SystemMsg :: c3Rest)) = true →
      (optimize 0 (fun _ => ("S").data) (c3SystemMsg :: c3Rest)).drop
          ((optimize 0 (fun _ => ("S").data) (c3SystemMsg :: c3Rest)).length - 4) =
        (c3SystemMsg :: c3Rest).drop ((c3SystemMsg :: c3Rest).length - 4)) :=
  C3_optimize_preserves_system_head_and_recent_tail 0 (fun _ => ("S").data)
    c3SystemMsg c3Rest (by decide)

/-- Claim C6 (amended): for a message inserted with
`source_action="run_command"`, when compression is enabled, the content
passes the `should_compress` threshold check, the compression achieves a
ratio below 0.95, and the compressed content does not trip the
large-message summarization, the stored message has its content replaced
by the compressed form and carries the token-to-pattern dictionary as
provenance metadata. -/
theorem C6_add_message_compresses (cfg : OptimizerConfig)
    (summarize : List Char → List Char) (msgs : List Msg) (message : Msg)
    (hen : cfg.compressionEnabled = true)
    (hsc : should_compress message.content cfg.compressionMinChars
      cfg.compressionMinTokens = true)
    (hratio : 20 * (compress_text message.content).compressed_size <
      19 * (compress_text message.content).original_size)
    (hsmall : (estimate_tokens (compress_text message.content).compressed_text : Int) ≤
      largeLimit cfg) :
    add_message cfg summarize msgs message (some ("run_command").data) =
      msgs ++ [{ message with
        sourceAction := some ("run_command").data,
        content := (compress_text message.content).compressed_text,
        compressionDict := some (compress_text message.content).dictionary }] := by
  have h1 : tag_source message (some (("run_command").data)) =
      { message with sourceAction := some (("run_command").data) } := by
    unfold tag_source
    rw [if_pos ⟨by simp, by simp⟩]
  have h2 : compress_step cfg (some (("run_command").data))
      { message with sourceAction := some (("run_command").data) } =
      { message with
        sourceAction := some (("run_command").data),
        content := (compress_text message.content).compressed_text,
        compressionDict := some (compress_text message.content).dictionary } := by
    unfold compress_step
    rw [if_pos ⟨hen, rfl, hsc⟩]
    show (if 20 * (compress_text message.content).compressed_size <
        19 * (compress_text message.content).original_size then _ else _) = _
    rw [if_pos hratio]
  have h3 : summarize_step cfg summarize
      { message with
        sourceAction := some (("run_command").data),
        content := (compress_text message.content).compressed_text,
        compressionDict := some (compress_text message.content).dictionary } =
      { message with
        sourceAction := some (("run_command").data),
        content := (compress_text message.content).compressed_text,
        compressionDict := some (compress_text message.content).dictionary } := by
    unfold summarize_step
    rw [if_neg (by simp only; omega)]
  unfold add_message
  rw [h1, h2, h3]

def incompressibleCfg : OptimizerConfig :=
  { compressionEnabled := true, compressionMinChars := 0, compressionMinTokens := 0,
    tokenThreshold := 1000, largeMessageRatio := 1 }

def incompressibleMsg : Msg := { role := ("user").data, content := ("abc").data }

/-- Claim C6, counterexample: compression is enabled and the content
passes the `should_compress` threshold check (thresholds 0), yet the
stored message carries no compression dictionary, because the content is
too small to compress and the ratio-`< 0.95` gate rejects the result.
The claim as stated (dictionary always attached once `should_compress`
passes) is therefore false. -/
theorem C6_add_message_counterexample :
    incompressibleCfg.compressionEnabled = true ∧
    should_compress incompressibleMsg.content incompressibleCfg.compressionMinChars
      incompressibleCfg.compressionMinTokens = true ∧
    add_message incompressibleCfg (fun s => s) [] incompressibleMsg
        (some (("run_command").data)) =
      [{ incompressibleMsg with sourceAction := some (("run_command").data) }] ∧
    ({ incompressibleMsg with
        sourceAction := some (("run_command").data) } : Msg).compressionDict = none := by
  decide

def compressibleMsg : Msg := { role := ("user").data, content := markerFreeInput }

theorem C6_add_message_witness :
    add_message incompressibleCfg (fun s => s) [] compressibleMsg
        (some (("run_command").data)) =
      [{ compressibleMsg with
        sourceAction := some (("run_command").data),
        content := (compress_text compressibleMsg.content).compressed_text,
        compressionDict := some (compress_text compressibleMsg.content).dictionary }] :=
  C6_add_message_compresses incompressibleCfg (fun s => s) [] compressibleMsg
    rfl (by decide) (by decide) (by decide)

/-! ## Loop detector (`neoflow/agent/loop_detector.py`) -/

structure ActionRecord where
  actionName : List Char
  parameters : List (List Char × List Char)
  resultSummary : List Char
  wasError : Bool
deriving DecidableEq

inductive LoopType : Type
  | actionRepetition
  | errorCycle
  | iterationLimit
  | patternLoop
deriving DecidableEq

inductive Severity : Type
  | warning
  | critical
deriving DecidableEq

structure LoopDetectionResult where
  isLoopDetected : Bool
  loopType : Option LoopType := none
  description : List Char := []
  severity : Severity := Severity.warning
  suggestedActions : List (List Char) := []
deriving DecidableEq

/-- `LoopDetector`: configuration (with the constructor defaults) plus
mutable state, threaded explicitly. -/
structure LoopDetector where
  maxIterations : Nat := 50
  actionWindowSize : Nat := 10
  repetitionThreshold : Nat := 3
  errorThreshold : Nat := 3
  patternLength : Nat := 3
  iterationCount : Nat := 0
  actionHistory : List ActionRecord := []
  consecutiveErrors : Nat := 0
  lastUserIntervention : Nat := 0
deriving DecidableEq

/-- `record_action`: bump the iteration counter, track the error streak,
append the record (truncated result) to the window, evicting from the
front on overflow (`deque(maxlen=…)`). -/
def record_action (d : LoopDetector) (actionName : List Char)
    (parameters : List (List Char × List Char) := []) (result : List Char := [])
    (wasError : Bool := false) : LoopDetector :=
  { d with
    iterationCount := d.iterationCount + 1,
    consecutiveErrors := if wasError then d.consecutiveErrors + 1 else 0,
    actionHistory :=
      let hist := d.actionHistory ++ [⟨actionName, parameters, result.take 200, wasError⟩]
      if d.actionWindowSize < hist.length then
        hist.drop (hist.length - d.actionWindowSize)
      else hist }

def curatedKeys : List (List Char) :=
  [("path").data, ("query").data, ("command").data, ("pattern").data]

/-- Lookup-extensional dict equality (Python `==` on the dicts the
association lists represent). -/
def dictEqb (a b : List (List Char × List Char)) : Bool :=
  a.all (fun kv => pyLookup b kv.1 = pyLookup a kv.1) &&
  b.all (fun kv => pyLookup a kv.1 = pyLookup b kv.1)

/-- `_params_similar`: exact match on the curated key subset, or any
shared curated key with a case-insensitively equal value. -/
def params_similar (p1 p2 : List (List Char × List Char)) : Bool :=
  let k1 := p1.filter (fun kv => curatedKeys.contains kv.1)
  let k2 := p2.filter (fun kv => curatedKeys.contains kv.1)
  if dictEqb k1 k2 then true
  else if k1 = [] ∨ k2 = [] then false
  else k1.any (fun kv =>
    match pyLookup k2 kv.1 with
    | some v2 => pyLower ((pyLookup k1 kv.1).getD []) = pyLower v2
    | none => false)

/-- The last `repetition_threshold` records (`history[-t:]`; Python's
`[-0:]` is the whole list). -/
def recentWindow (d : LoopDetector) : List ActionRecord :=
  if d.repetitionThreshold = 0 then d.actionHistory
  else d.actionHistory.drop (d.actionHistory.length - d.repetitionThreshold)

def matchesFirst (first : ActionRecord) (a : ActionRecord) : Bool :=
  a.actionName = first.actionName && params_similar a.parameters first.parameters

/-- The `total_count` of `_detect_action_repetition`: occurrences in the
whole window matching the first recent record. -/
def repetition_total_count (d : LoopDetector) : Nat :=
  match recentWindow d with
  | [] => 0
  | first :: _ => (d.actionHistory.filter (matchesFirst first)).length

/-- `_detect_action_repetition`.  (With `repetition_threshold = 0` and an
empty history Python would raise `IndexError` on `recent_actions[0]`; the
empty arm is unreachable for positive thresholds.) -/
def detect_action_repetition (d : LoopDetector) : Option LoopDetectionResult :=
  if d.actionHistory.length < d.repetitionThreshold then none
  else
    match recentWindow d with
    | [] => none
    | first :: rest =>
      if (first :: rest).all (matchesFirst first) then
        some
          { isLoopDetected := true,
            loopType := some LoopType.actionRepetition,
            severity :=
              if repetition_total_count d < d.repetitionThreshold + 2 then Severity.warning
              else Severity.critical,
            description :=
              ("Agent is repeating the same action: ").data ++ ['\x27'] ++
                first.actionName ++ ['\x27'] ++ (" with similar parameters (").data ++
                (Nat.repr (repetition_total_count d)).data ++ (" times)").data,
            suggestedActions :=
              [("Explain why ").data ++ ['\x27'] ++ first.actionName ++ ['\x27'] ++
                 (" keeps failing or producing inadequate results").data,
               ("Suggest alternative actions or approaches").data,
               ("Provide the information the agent is looking for directly").data,
               ("Clarify the task requirements").data] }
      else none

/-- Consecutive repetitions of the name pattern `pat` over successive
chunks (`_detect_pattern`'s inner loop; stops at the first mismatch). -/
def chunkReps : Nat → List ActionRecord → List (List Char) → Nat
  | 0, _, _ => 0
  | fuel + 1, rem, pat =>
    if rem = [] then 0
    else if (rem.take pat.length).map (fun a => a.actionName) = pat then
      1 + chunkReps fuel (rem.drop pat.length) pat
    else 0

/-- The slice `list(history)[-3L:]` examined by `_detect_pattern`
(Python's `[-0:]` is the whole list). -/
def patternRecent (d : LoopDetector) : List ActionRecord :=
  if d.patternLength * 3 = 0 then d.actionHistory
  else d.actionHistory.drop (d.actionHistory.length - d.patternLength * 3)

def repsFor (recent : List ActionRecord) (plen : Nat) : Nat :=
  chunkReps recent.length (recent.drop plen)
    ((recent.take plen).map (fun a => a.actionName))

/-- One iteration of `_detect_pattern`'s outer loop, at candidate pattern
length `plen`.  (With `pattern_length = 0` Python's `range(0, n, 0)`
would raise `ValueError`; such lengths are skipped.) -/
def patternCandidate (recent : List ActionRecord) (plen : Nat) :
    Option LoopDetectionResult :=
  if plen = 0 then none
  else
    if 2 ≤ repsFor recent plen then
      some
        { isLoopDetected := true,
          loopType := some LoopType.patternLoop,
          severity :=
            if repsFor recent plen = 2 then Severity.warning else Severity.critical,
          description :=
            ("Agent is repeating a pattern of actions ").data ++
              (Nat.repr (repsFor recent plen + 1)).data ++ (" times: [").data ++
              joinSep (" → ").data ((recent.take plen).map (fun a => a.actionName)) ++
              ("]").data,
          suggestedActions :=
            [("Identify why this sequence isn\x27t making progress").data,
             ("Provide missing information or context").data,
             ("Break the cycle by suggesting a different approach").data,
             ("Check if the agent has all required resources").data] }
    else none

/-- `_detect_pattern`: first (shortest) repeating pattern found. -/
def detect_pattern (d : LoopDetector) : Option LoopDetectionResult :=
  if d.actionHistory.length < d.patternLength * 2 then none
  else
    (List.range' d.patternLength
        ((patternRecent d).length / 2 + 1 - d.patternLength)).findSome?
      (patternCandidate (patternRecent d))

def noLoopResult : LoopDetectionResult := { isLoopDetected := false }

/-- `check_for_loops`: the four checks in priority order. -/
def check_for_loops (d : LoopDetector) : LoopDetectionResult :=
  let afterRepetition : LoopDetectionResult :=
    if d.patternLength * 2 ≤ d.actionHistory.length then
      match detect_pattern d with
      | some r => r
      | none => noLoopResult
    else noLoopResult
  if d.maxIterations ≤ d.iterationCount then
    { isLoopDetected := true,
      loopType := some LoopType.iterationLimit,
      severity := Severity.critical,
      description :=
        ("Agent has executed ").data ++ (Nat.repr d.iterationCount).data ++
          (" iterations (limit: ").data ++ (Nat.repr d.maxIterations).data ++ (")").data,
      suggestedActions :=
        [("Provide more specific instructions").data,
         ("Break the task into smaller subtasks").data,
         ("Check if the task requirements are clear").data,
         ("Abort and try a different approach").data] }
  else if d.errorThreshold ≤ d.consecutiveErrors then
    { isLoopDetected := true,
      loopType := some LoopType.errorCycle,
      severity := Severity.critical,
      description :=
        ("Agent encountered ").data ++ (Nat.repr d.consecutiveErrors).data ++
          (" consecutive errors").data,
      suggestedActions :=
        [("Review the error messages and provide guidance").data,
         ("Check if required files or resources exist").data,
         ("Verify the environment is properly configured").data,
         ("Simplify the task or change the approach").data] }
  else if d.repetitionThreshold ≤ d.actionHistory.length then
    match detect_action_repetition d with
    | some r => r
    | none => afterRepetition
  else afterRepetition

/-! ### Lemmas about the loop detector -/

theorem findSome_exists {α β : Type} (f : α → Option β) :
    ∀ (l : List α) (b : β), l.findSome? f = some b → ∃ a, f a = some b := by
  intro l
  induction l with
  | nil => intro b h; simp [List.findSome?] at h
  | cons x xs ih =>
    intro b h
    rw [List.findSome?_cons] at h
    cases hfx : f x with
    | some y =>
      rw [hfx] at h
      exact ⟨x, hfx.trans h⟩
    | none =>
      rw [hfx] at h
      obtain ⟨a, ha⟩ := ih b h
      exact ⟨a, ha⟩

theorem patternCandidate_loopType (recent : List ActionRecord) (plen : Nat)
    (r : LoopDetectionResult) (h : patternCandidate recent plen = some r) :
    r.loopType = some LoopType.patternLoop := by
  unfold patternCandidate at h
  split at h
  · exact absurd h (by simp)
  · split at h
    · injection h with h
      subst h
      rfl
    · exact absurd h (by simp)

theorem detect_pattern_loopType (d : LoopDetector) (r : LoopDetectionResult)
    (h : detect_pattern d = some r) : r.loopType = some LoopType.patternLoop := by
  unfold detect_pattern at h
  split at h
  · exact absurd h (by simp)
  · obtain ⟨plen, hp⟩ := findSome_exists _ _ _ h
    exact patternCandidate_loopType _ plen r hp

theorem afterRepetition_loopType_ne (d : LoopDetector) :
    (if d.patternLength * 2 ≤ d.actionHistory.length then
        match detect_pattern d with
        | some r => r
        | none => noLoopResult
      else noLoopResult).loopType ≠ some LoopType.actionRepetition := by
  split
  · cases hr : detect_pattern d with
    | some r =>
      simp only [hr]
      rw [detect_pattern_loopType d r hr]
      simp
    | none => simp [hr, noLoopResult]
  · simp [noLoopResult]

theorem detect_rep_severity (d : LoopDetector) (r : LoopDetectionResult)
    (h : detect_action_repetition d = some r) :
    r.severity =
      if repetition_total_count d < d.repetitionThreshold + 2 then Severity.warning
      else Severity.critical := by
  unfold detect_action_repetition at h
  split at h
  · exact absurd h (by simp)
  · split at h
    · exact absurd h (by simp)
    · split at h
      · injection h with h
        subst h
        rfl
      · exact absurd h (by simp)

theorem dictEqb_refl (a : List (List Char × List Char)) : dictEqb a a = true := by
  simp [dictEqb, List.all_eq_true]

theorem params_similar_refl (p : List (List Char × List Char)) :
    params_similar p p = true := by
  unfold params_similar
  simp [dictEqb_refl]

def c4act (d : LoopDetector) : LoopDetector :=
  record_action d ("list_files").data [(("path").data, ("src").data)] ("ok").data false

def c4state : LoopDetector := (List.range 5).foldl (fun d _ => c4act d) {}

def c4warnState : LoopDetector := (List.range 3).foldl (fun d _ => c4act d) {}

/-- C4 counterexample: a fresh detector (repetition_threshold 3) fed five
identical actions reports action_repetition with a total matching count of
exactly repetition_threshold + 2 = 5, yet the severity is already
critical, not warning — the code escalates when the count reaches
repetition_threshold + 2, the claim only once it exceeds it. -/
theorem C4_severity_counterexample :
    (check_for_loops c4state).loopType = some LoopType.actionRepetition ∧
    repetition_total_count c4state ≤ c4state.repetitionThreshold + 2 ∧
    (check_for_loops c4state).severity ≠ Severity.warning := by decide

/-- C4 (amended): whenever check_for_loops reports action_repetition, the
severity is warning exactly when the total matching count in the window is
strictly below repetition_threshold + 2 (i.e. at most repetition_threshold
+ 1), and critical from repetition_threshold + 2 on. -/
theorem C4_repetition_severity_boundary (d : LoopDetector)
    (h : (check_for_loops d).loopType = some LoopType.actionRepetition) :
    ((check_for_loops d).severity = Severity.warning ↔
      repetition_total_count d < d.repetitionThreshold + 2) := by
  by_cases h1 : d.maxIterations ≤ d.iterationCount
  · exfalso
    simp [check_for_loops, h1] at h
  by_cases h2 : d.errorThreshold ≤ d.consecutiveErrors
  · exfalso
    simp [check_for_loops, h1, h2] at h
  by_cases h3 : d.repetitionThreshold ≤ d.actionHistory.length
  · cases hda : detect_action_repetition d with
    | some r =>
      have hc : check_for_loops d = r := by
        simp [check_for_loops, h1, h2, h3, hda]
      rw [hc]
      rw [detect_rep_severity d r hda]
      split
      · next h4 => simp [h4]
      · next h4 => simp [h4]
    | none =>
      exfalso
      have hc : check_for_loops d =
          (if d.patternLength * 2 ≤ d.actionHistory.length then
              match detect_pattern d with
              | some r => r
              | none => noLoopResult
            else noLoopResult) := by
        simp [check_for_loops, h1, h2, h3, hda]
      rw [hc] at h
      exact afterRepetition_loopType_ne d h
  · exfalso
    have hc : check_for_loops d =
        (if d.patternLength * 2 ≤ d.actionHistory.length then
            match detect_pattern d with
            | some r => r
            | none => noLoopResult
          else noLoopResult) := by
      simp [check_for_loops, h1, h2, h3]
    rw [hc] at h
    exact afterRepetition_loopType_ne d h

/-- C4 witness: with three identical records the count is 3 < 5 and the
boundary theorem applies, giving severity warning. -/
theorem C4_severity_boundary_witness :
    (check_for_loops c4warnState).loopType = some LoopType.actionRepetition ∧
    ((check_for_loops c4warnState).severity = Severity.warning ↔
      repetition_total_count c4warnState < c4warnState.repetitionThreshold + 2) :=
  ⟨by decide, C4_repetition_severity_boundary c4warnState (by decide)⟩

/-- C5: on a fresh detector (defaults except max_iterations and
error_threshold, which only need to be large enough that checks 1 and 2
cannot fire), recording the same action name with the same parameters
three times consecutively (was_error = false) makes check_for_loops
report a loop of type action_repetition, while after only two such
records check_for_loops reports no loop. -/
theorem C5_threshold_fires_at_three (maxIt errThr : Nat) (name : List Char)
    (params : List (List Char × List Char)) (r1 r2 r3 : List Char)
    (hmax : 4 ≤ maxIt) (herr : 1 ≤ errThr) :
    ((check_for_loops (record_action (record_action (record_action
        ({ maxIterations := maxIt, errorThreshold := errThr } : LoopDetector)
        name params r1 false) name params r2 false) name params r3 false)).isLoopDetected
          = true ∧
      (check_for_loops (record_action (record_action (record_action
        ({ maxIterations := maxIt, errorThreshold := errThr } : LoopDetector)
        name params r1 false) name params r2 false) name params r3 false)).loopType
          = some LoopType.actionRepetition) ∧
    (check_for_loops (record_action (record_action
        ({ maxIterations := maxIt, errorThreshold := errThr } : LoopDetector)
        name params r1 false) name params r2 false)).isLoopDetected = false := by
  have h3 : record_action (record_action (record_action
      ({ maxIterations := maxIt, errorThreshold := errThr } : LoopDetector)
      name params r1 false) name params r2 false) name params r3 false =
      { maxIterations := maxIt, errorThreshold := errThr, iterationCount := 3,
        consecutiveErrors := 0,
        actionHistory :=
          [⟨name, params, r1.take 200, false⟩, ⟨name, params, r2.take 200, false⟩,
           ⟨name, params, r3.take 200, false⟩] } := by
    simp [record_action]
  have h2 : record_action (record_action
      ({ maxIterations := maxIt, errorThreshold := errThr } : LoopDetector)
      name params r1 false) name params r2 false =
      { maxIterations := maxIt, errorThreshold := errThr, iterationCount := 2,
        consecutiveErrors := 0,
        actionHistory :=
          [⟨name, params, r1.take 200, false⟩, ⟨name, params, r2.take 200, false⟩] } := by
    simp [record_action]
  have hm3 : ¬ (maxIt ≤ 3) := by omega
  have hm2 : ¬ (maxIt ≤ 2) := by omega
  have he : ¬ (errThr ≤ 0) := by omega
  rw [h3, h2]
  refine ⟨⟨?_, ?_⟩, ?_⟩
  · simp [check_for_loops, hm3, he, detect_action_repetition, recentWindow,
      matchesFirst, params_similar_refl]
  · simp [check_for_loops, hm3, he, detect_action_repetition, recentWindow,
      matchesFirst, params_similar_refl]
  · simp [check_for_loops, hm2, he, noLoopResult]

def c5base : LoopDetector := { maxIterations := 50, errorThreshold := 3 }

def c5rec (d : LoopDetector) : LoopDetector :=
  record_action d ("search_code").data [(("query").data, ("auth").data)] [] false

/-- C5 witness at a concrete instantiation: defaults 50/3, action
search_code with a query parameter. -/
theorem C5_threshold_witness :
    ((check_for_loops (c5rec (c5rec (c5rec c5base)))).isLoopDetected = true ∧
      (check_for_loops (c5rec (c5rec (c5rec c5base)))).loopType
        = some LoopType.actionRepetition) ∧
    (check_for_loops (c5rec (c5rec c5base))).isLoopDetected = false :=
  C5_threshold_fires_at_three 50 3 (("search_code").data)
    [(("query").data, ("auth").data)] [] [] [] (by decide) (by decide)

/-! ## Planner (`neoflow/agent/planner.py`)

LLM calls, console display and the pre-planning file-context step are
external effects: the two response strings and the context block are
oracle inputs.  Python attribute errors escaping `maybe_plan` (`.get` on a
non-dict parse result, `.strip` on a non-string field) are modeled as
`Except.error`. -/

structure PyExc where
  msg : List Char
deriving DecidableEq

/-- Python truthiness of a JSON value (`bool(x)` for the corresponding
Python object). -/
def jsonTruthy : Json → Bool
  | Json.null => false
  | Json.bool b => b
  | Json.num (JNum.int n) => n ≠ 0
  | Json.num (JNum.float q) => q ≠ 0
  | Json.num JNum.nan => true
  | Json.num (JNum.inf _) => true
  | Json.str s => !s.isEmpty
  | Json.arr l => !l.isEmpty
  | Json.obj l => !l.isEmpty

/-- Python `x.get(key, default)`: `AttributeError` when `x` is not a dict. -/
def jsonGet (j : Json) (key : List Char) (dflt : Json) : Except PyExc Json :=
  match j with
  | Json.obj fields => Except.ok ((pyLookup fields key).getD dflt)
  | _ => Except.error ⟨("AttributeError: get").data⟩

/-- All matches of `\x7b[^\x7b\x7d]*\x7d` (`re.finditer`, left to right,
non-overlapping), matched text inclusive of the braces. -/
def braceChunks : Nat → List Char → List (List Char)
  | 0, _ => []
  | _ + 1, [] => []
  | fuel + 1, c :: rest =>
    if c = '\x7b' then
      let body := rest.takeWhile (fun x => x ≠ '\x7b' ∧ x ≠ '\x7d')
      match rest.drop body.length with
      | '\x7d' :: tail => ('\x7b' :: (body ++ ['\x7d'])) :: braceChunks fuel tail
      | _ => braceChunks fuel rest
    else braceChunks fuel rest

/-- `Planner._parse_json`: fenced ```json block first, then the first
parseable flat brace group. -/
def planner_parse_json (text : List Char) : Option Json :=
  match searchFencedJson (text.length + 1) text with
  | some body =>
    match json_loads body with
    | some j => some j
    | none => (braceChunks (text.length + 1) text).findSome? json_loads
  | none => (braceChunks (text.length + 1) text).findSome? json_loads

/-- The `(?:[-*]|\d+\.)` prefix of the task-line pattern: the rest of the
line after the prefix, or `none` when the line has no such prefix. -/
def taskPrefixSplit (line : List Char) : Option (List Char) :=
  match line with
  | '-' :: r => some r
  | '*' :: r => some r
  | _ =>
    let digits := line.takeWhile (fun c => '0' ≤ c ∧ c ≤ '9')
    if digits = [] then none
    else
      match line.drop digits.length with
      | '.' :: r => some r
      | _ => none

/-- Group 1 of `^(?:[-*]|\d+\.)\s*(?:\[.\]\s*)?(.*)` on a single line. -/
def taskLineGroup (line : List Char) : Option (List Char) :=
  (taskPrefixSplit line).map (fun rest0 =>
    let rest1 := rest0.dropWhile isPySpace
    match rest1 with
    | '[' :: _ :: ']' :: r => r.dropWhile isPySpace
    | _ => rest1)

/-- `_parse_task_list` on a (non-empty) string argument. -/
def parse_task_list_str (s : List Char) : List (List Char) :=
  ((splitLines (pyStrip s)).map pyStrip).filterMap (fun line =>
    match taskLineGroup line with
    | some g1 =>
      let desc := pyStrip g1
      if desc = [] then none else some desc
    | none => none)

/-- `_parse_task_list` on the raw `tasks` field: falsy values (including
the empty string) yield `[]` without touching `.strip`; truthy non-strings
raise `AttributeError`. -/
def parse_task_list (tasksText : Json) : Except PyExc (List (List Char)) :=
  if jsonTruthy tasksText then
    match tasksText with
    | Json.str s => Except.ok (parse_task_list_str s)
    | _ => Except.error ⟨("AttributeError: strip").data⟩
  else Except.ok []

structure TaskQueue where
  plan : Json
  tasks : List (List Char)
  system_prompt : List Char

/-- Oracle inputs for one `maybe_plan` call: the analysis-step and
generation-step LLM responses (the gathered file context only feeds the
generation prompt, so it does not appear). -/
structure PlanOracle where
  analysisResp : List Char
  genResp : List Char

/-- `Planner.maybe_plan`.  The compact-display block is a side effect, but
its `plan.strip()` on a truthy non-string plan raises, so that guard is
kept; the non-string arm of the single-task fallback is unreachable
(a truthy non-string `tasks` has already raised in `_parse_task_list`). -/
def maybe_plan (planningEnabled : Bool) (o : PlanOracle)
    (task systemPrompt : List Char) : Except PyExc (Option TaskQueue) :=
  if ¬ planningEnabled then Except.ok none
  else
    match planner_parse_json o.analysisResp with
    | none => Except.ok none
    | some parsed =>
      match jsonGet parsed (("needs_planning").data) (Json.bool false) with
      | Except.error e => Except.error e
      | Except.ok needsVal =>
        if ¬ jsonTruthy needsVal then Except.ok none
        else
          match planner_parse_json o.genResp with
          | none => Except.ok none
          | some genParsed =>
            match jsonGet genParsed (("plan").data) (Json.str []) with
            | Except.error e => Except.error e
            | Except.ok plan =>
              match jsonGet genParsed (("tasks").data) (Json.str []) with
              | Except.error e => Except.error e
              | Except.ok tasksRaw =>
                if ¬ jsonTruthy plan ∧ ¬ jsonTruthy tasksRaw then Except.ok none
                else
                  match parse_task_list tasksRaw with
                  | Except.error e => Except.error e
                  | Except.ok taskList =>
                    let finalTasks :=
                      if taskList = [] then
                        match tasksRaw with
                        | Json.str s => if s ≠ [] then [pyStrip s] else [task]
                        | _ => [task]
                      else taskList
                    match plan with
                    | Json.str _ =>
                      Except.ok (some ⟨plan, finalTasks, systemPrompt⟩)
                    | _ =>
                      if jsonTruthy plan then
                        Except.error ⟨("AttributeError: strip").data⟩
                      else Except.ok (some ⟨plan, finalTasks, systemPrompt⟩)

def planTasks (r : Except PyExc (Option TaskQueue)) :
    Option (Option (List (List Char))) :=
  match r with
  | Except.ok oq => some (oq.map (fun q => q.tasks))
  | Except.error _ => none

def c7analysisResp : List Char := ("\x7b\"needs_planning\": true\x7d").data

def c7genEmptyResp : List Char := ("\x7b\"plan\": \"\", \"tasks\": \"\"\x7d").data

/-- C7 counterexample: the generation response parses and its checklist
text (the tasks field) is empty, so per the claim maybe_plan should
return a TaskQueue whose sole task is the original request — but because
the plan field is also empty, the code returns None before reaching any
fallback. -/
theorem C7_empty_checklist_counterexample :
    ((planner_parse_json c7genEmptyResp).bind
        (fun gp => (jsonGet gp (("tasks").data) (Json.str [])).toOption)).map jsonTruthy
      = some false ∧
    planTasks (maybe_plan true ⟨c7analysisResp, c7genEmptyResp⟩
      (("original request").data) (("sys").data)) = some none := by decide

/-- C7 (amended): in the generation step (planning enabled, analysis
response parses with a truthy needs_planning, generation response parses
with string plan and tasks fields): when line parsing of a non-empty
checklist yields zero tasks the queue holds the stripped checklist text
as its single task; when the checklist is empty but the plan is not, the
sole task is the original request; when both are empty maybe_plan
returns None and no queue is produced. -/
theorem C7_planner_task_fallbacks (o : PlanOracle)
    (task sysPrompt ps ts : List Char) (ap nv gp : Json)
    (hana : planner_parse_json o.analysisResp = some ap)
    (hget : jsonGet ap (("needs_planning").data) (Json.bool false) = Except.ok nv)
    (hnv : jsonTruthy nv = true)
    (hgen : planner_parse_json o.genResp = some gp)
    (hplan : jsonGet gp (("plan").data) (Json.str []) = Except.ok (Json.str ps))
    (htasks : jsonGet gp (("tasks").data) (Json.str []) = Except.ok (Json.str ts)) :
    (parse_task_list_str ts = [] → ts ≠ [] →
      maybe_plan true o task sysPrompt
        = Except.ok (some ⟨Json.str ps, [pyStrip ts], sysPrompt⟩)) ∧
    (ts = [] → ps ≠ [] →
      maybe_plan true o task sysPrompt
        = Except.ok (some ⟨Json.str ps, [task], sysPrompt⟩)) ∧
    (ts = [] → ps = [] →
      maybe_plan true o task sysPrompt = Except.ok none) := by
  refine ⟨?_, ?_, ?_⟩
  · intro h1 h2
    have hts : jsonTruthy (Json.str ts) = true := by
      simpa [jsonTruthy, List.isEmpty_iff] using h2
    simp [maybe_plan, hana, hget, hnv, hgen, hplan, htasks,
      parse_task_list, hts, h1, h2]
  · intro h1 h2
    subst h1
    have hts : jsonTruthy (Json.str ([] : List Char)) = false := rfl
    have hps : jsonTruthy (Json.str ps) = true := by
      simpa [jsonTruthy, List.isEmpty_iff] using h2
    simp [maybe_plan, hana, hget, hnv, hgen, hplan, htasks,
      parse_task_list, hts, hps]
  · intro h1 h2
    subst h1
    subst h2
    have hts : jsonTruthy (Json.str ([] : List Char)) = false := rfl
    simp [maybe_plan, hana, hget, hnv, hgen, hplan, htasks,
      parse_task_list, hts]

def c7wGenResp : List Char :=
  ("\x7b\"plan\": \"P\", \"tasks\": \"just do it\"\x7d").data

/-- C7 witness: a checklist with no recognized line prefix parses to zero
tasks, so the queue holds the whole (stripped) checklist text as its
single task. -/
theorem C7_fallback_witness :
    maybe_plan true ⟨c7analysisResp, c7wGenResp⟩ (("orig task").data) (("sys").data)
      = Except.ok (some ⟨Json.str (("P").data), [("just do it").data], ("sys").data⟩) :=
  (C7_planner_task_fallbacks ⟨c7analysisResp, c7wGenResp⟩
      (("orig task").data) (("sys").data) (("P").data) (("just do it").data)
      (Json.obj [(("needs_planning").data, Json.bool true)]) (Json.bool true)
      (Json.obj [(("plan").data, Json.str (("P").data)),
        (("tasks").data, Json.str (("just do it").data))])
      rfl rfl rfl rfl rfl rfl).1 rfl (by decide)

/-! ## Action dispatch (`neoflow/agent/agent.py`, `_execute_action`)

Tool implementations perform external effects, so each is an oracle that
either returns a result string or raises (`Except.error`, standing for
any `Exception`; `BaseException`s such as `KeyboardInterrupt` are outside
the model).  Python `str()` of an arbitrary parsed value (used only in
the unknown-action message) is likewise an oracle. -/

structure ToolImpls where
  runCommand : Json → Bool → Except PyExc (List Char)
  writeFile : Json → Json → Except PyExc (List Char)
  readFile : Json → Json → Json → Except PyExc (List Char)
  editFile : Json → Json → Json → Except PyExc (List Char)
  deleteFile : Json → Except PyExc (List Char)
  searchCode : Json → Json → Json → Json → Json → Json → Except PyExc (List Char)
  searchDocumentation : Json → Json → Except PyExc (List Char)
  searchTickets : Json → Json → Except PyExc (List Char)
  askChat : Json → Except PyExc (Option (List Char))
  askUser : Json → Json → Json → Except PyExc (List Char)
  notebookSearch : Json → Except PyExc (List Char)
  notebookAdd : Json → Json → Except PyExc (List Char)
  notebookRemove : Json → Except PyExc (List Char)

/-- Python `==` between a parsed value and a string literal. -/
def jsonIsStr (j : Json) (s : List Char) : Bool :=
  match j with
  | Json.str t => t = s
  | _ => false

/-- `action.get(key, dflt)` on the action dict. -/
def jsonGetD (fields : List (List Char × Json)) (key : List Char) (dflt : Json) :
    Json :=
  (pyLookup fields key).getD dflt

/-- `action[key]`: `KeyError` (whose `str` is the quoted key) when absent. -/
def keyIndex (action : List (List Char × Json)) (key : List Char) :
    Except PyExc Json :=
  match pyLookup action key with
  | some v => Except.ok v
  | none => Except.error ⟨['\x27'] ++ key ++ ['\x27']⟩

/-- Python dict assignment `d[k] = v`: replace in place or append. -/
def pyDictSet {α : Type} (d : List (List Char × α)) (k : List Char) (v : α) :
    List (List Char × α) :=
  if d.any (fun kv => kv.1 = k) then
    d.map (fun kv => if kv.1 = k then (k, v) else kv)
  else d ++ [(k, v)]

/-- The body of `_execute_action`'s `try` block: the dispatch chain.
Returns the result string and the (possibly updated) `pre_completed`
dict; `Except.error` is an escaping exception. -/
def executeActionCore (impls : ToolImpls) (pyStr : Json → List Char)
    (action : List (List Char × Json)) (unsafeMode : Bool)
    (preCompleted : Option (List (List Char × Json))) :
    Except PyExc (List Char × Option (List (List Char × Json))) :=
  let act := jsonGetD action (("action").data) Json.null
  if jsonIsStr act (("mark_task_done").data) then
    match jsonGetD action (("task_id").data) (Json.str []) with
    | Json.str tid0 =>
      let tid := pyStrip tid0
      let summary := jsonGetD action (("summary").data)
        (Json.str (("Completed as part of this task.").data))
      if tid = [] then
        Except.ok
          (("Error: mark_task_done requires a \x27task_id\x27 field.").data,
            preCompleted)
      else
        match preCompleted with
        | none =>
          Except.ok
            (("Error: mark_task_done is only available in multi-task workflows.").data,
              preCompleted)
        | some pc =>
          Except.ok
            (("Task \x27").data ++ tid ++
              ("\x27 recorded as already done. It will be skipped when reached.").data,
              some (pyDictSet pc tid summary))
    | _ => Except.error ⟨("AttributeError: strip").data⟩
  else if jsonIsStr act (("run_command").data) then do
    let cmd ← keyIndex action (("command").data)
    let r ← impls.runCommand cmd unsafeMode
    return (r, preCompleted)
  else if jsonIsStr act (("write_file").data) then do
    let p ← keyIndex action (("path").data)
    let c ← keyIndex action (("content").data)
    let r ← impls.writeFile p c
    return (r, preCompleted)
  else if jsonIsStr act (("read_file").data) then do
    let p ← keyIndex action (("path").data)
    let r ← impls.readFile p
      (jsonGetD action (("offset").data) (Json.num (JNum.int 0)))
      (jsonGetD action (("limit").data) (Json.num (JNum.int 200)))
    return (r, preCompleted)
  else if jsonIsStr act (("edit_file").data) then do
    let p ← keyIndex action (("path").data)
    let olds ← keyIndex action (("old_string").data)
    let news ← keyIndex action (("new_string").data)
    let r ← impls.editFile p olds news
    return (r, preCompleted)
  else if jsonIsStr act (("delete_file").data) then do
    let p ← keyIndex action (("path").data)
    let r ← impls.deleteFile p
    return (r, preCompleted)
  else if jsonIsStr act (("search_code").data) then do
    let q ← keyIndex action (("query").data)
    let r ← impls.searchCode q
      (jsonGetD action (("limit").data) (Json.num (JNum.int 5)))
      (jsonGetD action (("repository").data) Json.null)
      (jsonGetD action (("language").data) Json.null)
      (jsonGetD action (("is_test").data) Json.null)
      (jsonGetD action (("directory").data) Json.null)
    return (r, preCompleted)
  else if jsonIsStr act (("search_documentation").data) then do
    let q ← keyIndex action (("query").data)
    let r ← impls.searchDocumentation q
      (jsonGetD action (("limit").data) (Json.num (JNum.int 5)))
    return (r, preCompleted)
  else if jsonIsStr act (("search_tickets").data) then do
    let q ← keyIndex action (("query").data)
    let r ← impls.searchTickets q
      (jsonGetD action (("limit").data) (Json.num (JNum.int 10)))
    return (r, preCompleted)
  else if jsonIsStr act (("ask_chat").data) then do
    let q ← keyIndex action (("query").data)
    let ans ← impls.askChat q
    return ((match ans with
      | some s => if s = [] then ("Chat could not produce an answer.").data else s
      | none => ("Chat could not produce an answer.").data), preCompleted)
  else if jsonIsStr act (("ask_user").data) then do
    let q ← keyIndex action (("question").data)
    let r ← impls.askUser q
      (jsonGetD action (("options").data) Json.null)
      (jsonGetD action (("allow_freeform").data) (Json.bool true))
    return (r, preCompleted)
  else if jsonIsStr act (("notebook_search").data) then do
    let q ← keyIndex action (("query").data)
    let r ← impls.notebookSearch q
    return (r, preCompleted)
  else if jsonIsStr act (("notebook_add").data) then do
    let t ← keyIndex action (("title").data)
    let c ← keyIndex action (("content").data)
    let r ← impls.notebookAdd t c
    return (r, preCompleted)
  else if jsonIsStr act (("notebook_remove").data) then do
    let t ← keyIndex action (("title").data)
    let r ← impls.notebookRemove t
    return (r, preCompleted)
  else
    Except.ok ((("Unknown action: ").data ++ pyStr act), preCompleted)

/-- `_execute_action`: the `try` body plus the `except Exception` arm. -/
def execute_action (impls : ToolImpls) (pyStr : Json → List Char)
    (action : List (List Char × Json)) (unsafeMode : Bool)
    (preCompleted : Option (List (List Char × Json))) :
    List Char × Option (List (List Char × Json)) :=
  match executeActionCore impls pyStr action unsafeMode preCompleted with
  | Except.ok r => r
  | Except.error e => ((("Error: ").data ++ e.msg), preCompleted)

/-- C8: whatever exception escapes the dispatch chain (a tool raising, a
missing key, a bad field type), _execute_action returns normally with the
string "Error: " followed by the exception text; its return type is
exception-free, so nothing propagates. -/
theorem C8_execute_action_catches (impls : ToolImpls) (pyStr : Json → List Char)
    (action : List (List Char × Json)) (unsafeMode : Bool)
    (preCompleted : Option (List (List Char × Json))) (e : PyExc)
    (h : executeActionCore impls pyStr action unsafeMode preCompleted
      = Except.error e) :
    execute_action impls pyStr action unsafeMode preCompleted
      = ((("Error: ").data ++ e.msg), preCompleted) := by
  simp [execute_action, h]

def c8impls : ToolImpls where
  runCommand := fun _ _ => Except.error ⟨("boom").data⟩
  writeFile := fun _ _ => Except.ok []
  readFile := fun _ _ _ => Except.ok []
  editFile := fun _ _ _ => Except.ok []
  deleteFile := fun _ => Except.ok []
  searchCode := fun _ _ _ _ _ _ => Except.ok []
  searchDocumentation := fun _ _ => Except.ok []
  searchTickets := fun _ _ => Except.ok []
  askChat := fun _ => Except.ok none
  askUser := fun _ _ _ => Except.ok []
  notebookSearch := fun _ => Except.ok []
  notebookAdd := fun _ _ => Except.ok []
  notebookRemove := fun _ => Except.ok []

def c8action : List (List Char × Json) :=
  [(("action").data, Json.str (("run_command").data)),
   (("command").data, Json.str (("ls").data))]

/-- C8 witness: a run_command implementation that raises produces the
prefixed error text. -/
theorem C8_execute_action_witness :
    execute_action c8impls (fun _ => []) c8action false none
      = ((("Error: boom").data), none) :=
  C8_execute_action_catches c8impls (fun _ => []) c8action false none
    ⟨("boom").data⟩ rfl

/-! ## Task resolutions (`neoflow/agent/task_manager.py`,
`neoflow/agent/task_executor.py`)

Creation timestamps (`datetime.now().isoformat()`) are oracle inputs.
Task dict entries `\x7bid, description, status\x7d` are triples. -/

structure TaskResolution where
  task_id : List Char
  task_description : List Char
  resolution : List Char
  timestamp : List Char
  notes : List Char
deriving DecidableEq

structure TaskList where
  id : List Char
  original_prompt : List Char
  tasks : List (List Char × List Char × List Char)
  resolutions : List TaskResolution
  created_at : List Char
deriving DecidableEq

/-- Mark the first task with this id completed (`break` after the first
match). -/
def markCompleted : List (List Char × List Char × List Char) → List Char →
    List (List Char × List Char × List Char)
  | [], _ => []
  | (i, d, s) :: rest, tid =>
    if i = tid then (i, d, ("completed").data) :: rest
    else (i, d, s) :: markCompleted rest tid

/-- `TaskList.add_resolution`. -/
def add_resolution (tl : TaskList)
    (nowIso task_id task_description resolution : List Char)
    (notes : List Char := []) : TaskList :=
  { tl with
    resolutions :=
      tl.resolutions ++ [⟨task_id, task_description, resolution, nowIso, notes⟩],
    tasks := markCompleted tl.tasks task_id }

/-- `TaskExecutor` state relevant to resolution tracking (`self.config`
and the never-read `self.task_resolutions` dict are omitted). -/
structure TaskExecutor where
  current_task_list : Option TaskList

/-- `TaskExecutor.record_task_resolution`: no-op without a task list. -/
def record_task_resolution (te : TaskExecutor)
    (nowIso task_id task_description resolution : List Char)
    (notes : List Char := []) : TaskExecutor :=
  match te.current_task_list with
  | none => te
  | some tl =>
    ⟨some (add_resolution tl nowIso task_id task_description resolution notes)⟩

def noResolutionsSentinel : List Char := ("No previous task resolutions yet.").data

/-- One resolution's block in the context text. -/
def resBlock (r : TaskResolution) : List Char :=
  ("**").data ++ r.task_id ++ (": ").data ++ r.task_description ++
    ("**\nResult: ").data ++ r.resolution ++
    (if r.notes = [] then [] else ("\nContext: ").data ++ r.notes)

/-- `TaskExecutor.get_previous_resolutions_context`. -/
def get_previous_resolutions_context (te : TaskExecutor) : List Char :=
  match te.current_task_list with
  | none => noResolutionsSentinel
  | some tl =>
    if tl.resolutions.isEmpty then noResolutionsSentinel
    else joinSep (("\n\n").data) (tl.resolutions.map resBlock)

theorem joinSep_infix (sep : List Char) (l : List (List Char)) (x : List Char)
    (hx : x ∈ l) : ∃ a b, joinSep sep l = a ++ x ++ b := by
  induction l with
  | nil => cases hx
  | cons y ys ih =>
    rcases List.mem_cons.mp hx with h | h
    · subst h
      cases ys with
      | nil => exact ⟨[], [], by simp [joinSep]⟩
      | cons z zs => exact ⟨[], sep ++ joinSep sep (z :: zs), by simp [joinSep]⟩
    · have hcons : ∃ z zs, ys = z :: zs := by
        cases ys with
        | nil => cases h
        | cons z zs => exact ⟨z, zs, rfl⟩
      obtain ⟨z, zs, hzs⟩ := hcons
      subst hzs
      obtain ⟨a, b, hab⟩ := ih h
      exact ⟨y ++ sep ++ a, b, by simp [joinSep, hab, List.append_assoc]⟩

theorem occursIn_in_context (p s a b t : List Char) (h1 : occursIn p s)
    (h2 : t = a ++ s ++ b) : occursIn p t := by
  obtain ⟨x, y, hxy⟩ := h1
  subst h2
  subst hxy
  exact ⟨a ++ x, y ++ b, by simp [List.append_assoc]⟩

theorem occursIn_resBlock_id (r : TaskResolution) :
    occursIn r.task_id (resBlock r) := by
  refine ⟨("**").data,
    (": ").data ++ r.task_description ++ ("**\nResult: ").data ++ r.resolution ++
      (if r.notes = [] then [] else ("\nContext: ").data ++ r.notes), ?_⟩
  simp [resBlock, List.append_assoc]

theorem occursIn_resBlock_desc (r : TaskResolution) :
    occursIn r.task_description (resBlock r) := by
  refine ⟨("**").data ++ r.task_id ++ (": ").data,
    ("**\nResult: ").data ++ r.resolution ++
      (if r.notes = [] then [] else ("\nContext: ").data ++ r.notes), ?_⟩
  simp [resBlock, List.append_assoc]

theorem joined_blocks_head (r : TaskResolution) (rs : List TaskResolution) :
    ∃ t, joinSep (("\n\n").data) ((r :: rs).map resBlock) = '*' :: t := by
  cases rs with
  | nil => exact ⟨_, rfl⟩
  | cons r2 rs2 => exact ⟨_, rfl⟩

/-- C9: with an initialized task list, the resolutions context is the
fixed sentinel exactly when no resolution has been recorded, and after
one record_task_resolution call the returned text contains that task's id
and description as substrings. -/
theorem C9_resolutions_context (tl : TaskList) :
    (get_previous_resolutions_context ⟨some tl⟩ = noResolutionsSentinel ↔
      tl.resolutions = []) ∧
    (∀ nowIso tid desc res : List Char,
      occursIn tid (get_previous_resolutions_context
        (record_task_resolution ⟨some tl⟩ nowIso tid desc res)) ∧
      occursIn desc (get_previous_resolutions_context
        (record_task_resolution ⟨some tl⟩ nowIso tid desc res))) := by
  constructor
  · cases hrs : tl.resolutions with
    | nil =>
      simp [get_previous_resolutions_context, hrs]
    | cons r rs =>
      simp only [get_previous_resolutions_context, hrs, List.isEmpty_cons,
        if_neg Bool.false_ne_true]
      constructor
      · intro h
        obtain ⟨t, ht⟩ := joined_blocks_head r rs
        rw [ht] at h
        simp [noResolutionsSentinel] at h
      · intro h
        cases h
  · intro nowIso tid desc res
    have hform : get_previous_resolutions_context
        (record_task_resolution ⟨some tl⟩ nowIso tid desc res) =
        joinSep (("\n\n").data)
          ((tl.resolutions ++ [(TaskResolution.mk tid desc res nowIso [])]).map resBlock) := by
      simp [record_task_resolution, add_resolution, get_previous_resolutions_context]
    have hmem : resBlock (TaskResolution.mk tid desc res nowIso []) ∈
        (tl.resolutions ++ [(TaskResolution.mk tid desc res nowIso [])]).map resBlock := by
      simp
    obtain ⟨a, b, hab⟩ := joinSep_infix (("\n\n").data) _ _ hmem
    constructor
    · exact occursIn_in_context _ _ a b _
        (occursIn_resBlock_id (TaskResolution.mk tid desc res nowIso [])) (hform.trans hab)
    · exact occursIn_in_context _ _ a b _
        (occursIn_resBlock_desc (TaskResolution.mk tid desc res nowIso [])) (hform.trans hab)

/-! ## Tool registry (`neoflow/agent/tool_registry.py`) -/

def isNameBody (c : Char) : Bool :=
  ('a' ≤ c && c ≤ 'z') || ('0' ≤ c && c ≤ '9') || c = '_'

/-- `_TOOL_NAME_PATTERN.match(name)`: `^[a-z][a-z0-9_]*$`, where Python's
`$` also matches just before one trailing newline. -/
def toolNameOk (s : List Char) : Bool :=
  toolNameCore s ||
    (match s.reverse with
     | '\n' :: r => toolNameCore r.reverse
     | _ => false)
where
  toolNameCore : List Char → Bool
    | c :: rest => ('a' ≤ c && c ≤ 'z') && rest.all isNameBody
    | [] => false

def RESERVED_TOOL_NAMES : List (List Char) :=
  [("run_command").data, ("write_file").data, ("read_file").data,
   ("edit_file").data, ("delete_file").data, ("search_code").data,
   ("search_documentation").data, ("search_tickets").data, ("ask_chat").data,
   ("ask_user").data, ("notebook_search").data, ("notebook_add").data,
   ("notebook_remove").data, ("mark_task_done").data, ("done").data]

/-- The declared data attributes of a `ToolDefinition` (its `execute`
method is behavior, not registry state). -/
structure ToolDef where
  name : List Char
  label : List Char
  icon : List Char
  security_level : List Char
  primary_param : List Char
  description : List Char
deriving DecidableEq

/-- `ToolRegistry`: the `_tools` dict. -/
structure ToolRegistry where
  tools : List (List Char × ToolDef)
deriving DecidableEq

/-- `ToolRegistry.register`. -/
def register (reg : ToolRegistry) (tool : ToolDef) : Except PyExc ToolRegistry :=
  if ¬ toolNameOk tool.name then
    Except.error ⟨("Tool name \x27").data ++ tool.name ++
      ("\x27 is invalid. Must match [a-z][a-z0-9_]*").data⟩
  else if tool.name ∈ RESERVED_TOOL_NAMES then
    Except.error ⟨("Tool name \x27").data ++ tool.name ++
      ("\x27 is reserved by a built-in tool and cannot be overridden.").data⟩
  else Except.ok ⟨pyDictSet reg.tools tool.name tool⟩

/-- `ToolRegistry.get`. -/
def registry_get (reg : ToolRegistry) (name : List Char) : Option ToolDef :=
  pyLookup reg.tools name

theorem pyLookup_append_right {α : Type} (a b : List (List Char × α))
    (k : List Char) (v : α) (h : pyLookup b k = some v) :
    pyLookup (a ++ b) k = some v := by
  induction a with
  | nil => simpa using h
  | cons kv rest ih =>
    show (match pyLookup (rest ++ b) k with
      | some w => some w
      | none => if kv.1 = k then some kv.2 else none) = some v
    rw [ih]

theorem pyLookup_set_map {α : Type} (d : List (List Char × α))
    (k : List Char) (v : α) :
    pyLookup (d.map (fun kv => if kv.1 = k then (k, v) else kv)) k =
      if d.any (fun kv => kv.1 = k) then some v else none := by
  induction d with
  | nil => rfl
  | cons kv rest ih =>
    show (match pyLookup (rest.map fun kv => if kv.1 = k then (k, v) else kv) k with
      | some w => some w
      | none =>
        if (if kv.1 = k then ((k, v) : List Char × α) else kv).1 = k then
          some (if kv.1 = k then ((k, v) : List Char × α) else kv).2
        else none) = _
    rw [ih]
    by_cases hk : kv.1 = k
    · by_cases hr : rest.any (fun kv => kv.1 = k) <;> simp [hk, hr]
    · by_cases hr : rest.any (fun kv => kv.1 = k) <;> simp [hk, hr]

theorem pyLookup_pyDictSet {α : Type} (d : List (List Char × α))
    (k : List Char) (v : α) : pyLookup (pyDictSet d k v) k = some v := by
  unfold pyDictSet
  split
  · next hmem =>
    rw [pyLookup_set_map]
    simp [hmem]
  · next =>
    exact pyLookup_append_right _ _ _ _ (by simp [pyLookup])

/-- C10: register raises exactly when the name fails the identifier
pattern or is reserved; any valid non-reserved registration succeeds and
the registry afterwards returns the new tool for that name, replacing any
earlier binding (the later registration wins). -/
theorem C10_register_replaces (reg : ToolRegistry) (tool : ToolDef) :
    ((∃ e, register reg tool = Except.error e) ↔
      (toolNameOk tool.name = false ∨ tool.name ∈ RESERVED_TOOL_NAMES)) ∧
    (toolNameOk tool.name = true → tool.name ∉ RESERVED_TOOL_NAMES →
      register reg tool = Except.ok ⟨pyDictSet reg.tools tool.name tool⟩ ∧
      registry_get ⟨pyDictSet reg.tools tool.name tool⟩ tool.name = some tool) := by
  constructor
  · constructor
    · intro ⟨e, he⟩
      by_cases h1 : toolNameOk tool.name
      · by_cases h2 : tool.name ∈ RESERVED_TOOL_NAMES
        · exact Or.inr h2
        · simp [register, h1, h2] at he
      · exact Or.inl (by simpa using h1)
    · intro h
      rcases h with h | h
      · refine ⟨⟨("Tool name \x27").data ++ tool.name ++
          ("\x27 is invalid. Must match [a-z][a-z0-9_]*").data⟩, ?_⟩
        simp [register, h]
      · by_cases h1 : toolNameOk tool.name
        · refine ⟨⟨("Tool name \x27").data ++ tool.name ++
            ("\x27 is reserved by a built-in tool and cannot be overridden.").data⟩, ?_⟩
          simp [register, h1, h]
        · refine ⟨⟨("Tool name \x27").data ++ tool.name ++
            ("\x27 is invalid. Must match [a-z][a-z0-9_]*").data⟩, ?_⟩
          simp [register, h1]
  · intro h1 h2
    refine ⟨by simp [register, h1, h2], ?_⟩
    exact pyLookup_pyDictSet reg.tools tool.name tool

def c10toolA : ToolDef :=
  ⟨("fmt").data, ("Formatter A").data, [], ("safe").data, [], []⟩

def c10toolB : ToolDef :=
  ⟨("fmt").data, ("Formatter B").data, [], ("safe").data, [], []⟩

def c10reg : ToolRegistry := ⟨pyDictSet ([] : List (List Char × ToolDef)) (("fmt").data) c10toolA⟩

/-- C10 witness: registering a second tool under an existing valid name
succeeds and get returns the newer tool. -/
theorem C10_register_witness :
    register c10reg c10toolB
      = Except.ok ⟨pyDictSet c10reg.tools (("fmt").data) c10toolB⟩ ∧
    registry_get ⟨pyDictSet c10reg.tools (("fmt").data) c10toolB⟩ (("fmt").data)
      = some c10toolB :=
  (C10_register_replaces c10reg c10toolB).2 (by decide) (by decide)
